import Mathlib

/-!
Verification of the metadata ingestion and cluster-reconciliation core of the
fastdbchkrep repository, shallowly embedded from the Python sources
`src/fastdbchkrep/meta/parser.py`, `src/fastdbchkrep/meta/rac_parser.py`,
`src/fastdbchkrep/meta/json_schema.py` and
`src/fastdbchkrep/meta/mysql/parser.py`.

Strings are modelled as Lean strings and are mostly manipulated through their
underlying character lists so that every definition evaluates by kernel
reduction.  Filesystem state is passed explicitly: a manifest load outcome per
directory, a list of existing file paths for the required-file checks, and a
directory listing for auto-discovery.  The wall-clock date used by fallback
paths is an explicit `today` parameter.
-/

namespace FastDbChkRep

/-- Membership in the Python character class `[a-zA-Z0-9_-]` (ASCII ranges,
exactly as in the `re` patterns of the source). -/
def isWordChar (c : Char) : Bool := c.isAlpha || c.isDigit || c = '_' || c = '-'

/-- Membership in the character class `[a-z]` used by `parse_filename`. -/
def isLowerAZ (c : Char) : Bool := 'a' ≤ c && c ≤ 'z'

/-- Python truthiness of an optional string: `None` and the empty string are
falsy. -/
def pyTruthy (o : Option String) : Bool :=
  match o with
  | none => false
  | some s => !s.data.isEmpty

/-- Splitting of a character list on a separator, with the semantics of
Python's `str.split(sep)`: no collapsing of empty fields, and the empty
string splits to one empty field. -/
def splitOnChar (sep : Char) : List Char → List (List Char)
  | [] => [[]]
  | c :: cs =>
    let r := splitOnChar sep cs
    if c = sep then [] :: r
    else
      match r with
      | h :: t => (c :: h) :: t
      | [] => [[c]]

/-- Joining of character-list fields with a separator character, the inverse
direction of `splitOnChar` (Python `sep.join(parts)`). -/
def joinWithChar (sep : Char) : List (List Char) → List Char
  | [] => []
  | [p] => p
  | p :: ps => p ++ sep :: joinWithChar sep ps

/-- Final path component: the part after the last '/', as in
`os.path.basename` for paths without a trailing separator. -/
def basenameChars (s : List Char) : List Char :=
  (splitOnChar '/' s).getLastD []

/-- Path join used by the source through `os.path.join` / `Path.__truediv__`
(POSIX, second component relative). -/
def joinPath (dir name : String) : String := dir ++ "/" ++ name

/-- Removal of the maximal trailing run of decimal digits, the semantics of
the source's recurring idiom `re.sub(r'\d+$', '', s)`. -/
def stripTrailingDigits (s : List Char) : List Char :=
  (s.reverse.dropWhile Char.isDigit).reverse

/-- String wrapper for `stripTrailingDigits`. -/
def stripTrailingDigitsS (s : String) : String :=
  String.mk (stripTrailingDigits s.data)

/-- Test for the pattern `^\d{8}$` (an 8-digit date). -/
def isDate8 (l : List Char) : Bool := l.length == 8 && l.all Char.isDigit

/-- Validity of an identifier: the pattern `^[a-zA-Z0-9_-]+$` from
`JsonSchemaValidator.validate_json`. -/
def isValidIdentifier (s : String) : Bool :=
  !s.data.isEmpty && s.data.all isWordChar

/-- Strict lexicographic comparison of character lists by code point, the
order Python uses to compare strings. -/
def strLtB : List Char → List Char → Bool
  | [], [] => false
  | [], _ :: _ => true
  | _ :: _, [] => false
  | a :: as, b :: bs =>
    if a.toNat < b.toNat then true
    else if b.toNat < a.toNat then false
    else strLtB as bs

/-- Non-strict counterpart of `strLtB`. -/
def strLeB (a b : List Char) : Bool := !strLtB b a

/-- First maximal element of a list of strings under Python's string order,
the behaviour of `max(iterable)` (later elements replace only when strictly
greater). -/
def pyMaxString : List String → Option String
  | [] => none
  | h :: t => some (t.foldl (fun acc x => if strLtB acc.data x.data then x else acc) h)

/-- Distinct values of a list in first-occurrence order.  This stands in for
Python's `set(...)`: the set's contents are exactly these values; where the
source observes the set's (unspecified) iteration order we keep
first-occurrence order. -/
def dedupKeepFirst : List String → List String
  | [] => []
  | h :: t =>
    let r := dedupKeepFirst t
    h :: r.filter (fun x => x ≠ h)

/-! ## SchemaValidator: filename encode/decode (`json_schema.py`) -/

/-- Filename encoding `JsonSchemaValidator.generate_filename`:
the literal f-string producing `(dbtype-dbmodel)-identifier.json`. -/
def generate_filename (dbtype dbmodel identifier : String) : String :=
  "(" ++ dbtype ++ "-" ++ dbmodel ++ ")-" ++ identifier ++ ".json"

/-- Filename decoding `JsonSchemaValidator.parse_filename`, i.e. matching of
the anchored pattern used there.  The character
classes of the three groups exclude the literal characters that follow them,
so the regex engine's greedy runs admit no backtracking and matching is
equivalent to taking maximal runs followed by the required literals, which is
what this function does. -/
def parseFilenameChars (s : List Char) : Option (String × String × String) :=
  match s with
  | c0 :: r0 =>
    if c0 = '(' then
      let g1 := r0.takeWhile isLowerAZ
      match r0.dropWhile isLowerAZ with
      | c1 :: r1 =>
        if c1 = '-' then
          let g2 := r1.takeWhile isLowerAZ
          match r1.dropWhile isLowerAZ with
          | c2 :: c3 :: r2 =>
            if c2 = ')' && c3 = '-' then
              let g3 := r2.takeWhile isWordChar
              let r3 := r2.dropWhile isWordChar
              if !g1.isEmpty && !g2.isEmpty && !g3.isEmpty && r3 = ".json".data then
                some (String.mk g1, String.mk g2, String.mk g3)
              else none
            else none
          | _ => none
        else none
      | _ => none
    else none
  | _ => none

/-- String wrapper for `parseFilenameChars`. -/
def parse_filename (s : String) : Option (String × String × String) :=
  parseFilenameChars s.data

/-- Database types accepted by `JsonSchemaValidator.validate_json` and by the
`Config.SUPPORTED_DATABASES` table. -/
def validDbtypes : List String :=
  ["oracle", "mysql", "postgresql", "sqlserver", "oracle_db_file"]

/-- Helper: a maximal run of characters satisfying `p` followed by a
character outside `p` is taken whole by `takeWhile`. -/
theorem takeWhile_append_stop (p : Char → Bool) (l₁ : List Char) (c : Char)
    (l₂ : List Char) (h₁ : ∀ x ∈ l₁, p x = true) (hc : p c = false) :
    (l₁ ++ c :: l₂).takeWhile p = l₁ := by
  induction l₁ with
  | nil => simp [List.takeWhile, hc]
  | cons a as ih =>
    have ha : p a = true := h₁ a (by simp)
    simp only [List.cons_append, List.takeWhile, ha]
    simp [ih (fun x hx => h₁ x (by simp [hx]))]

/-- Helper: dual of `takeWhile_append_stop` for `dropWhile`. -/
theorem dropWhile_append_stop (p : Char → Bool) (l₁ : List Char) (c : Char)
    (l₂ : List Char) (h₁ : ∀ x ∈ l₁, p x = true) (hc : p c = false) :
    (l₁ ++ c :: l₂).dropWhile p = c :: l₂ := by
  induction l₁ with
  | nil => simp [List.dropWhile, hc]
  | cons a as ih =>
    have ha : p a = true := h₁ a (by simp)
    simp only [List.cons_append, List.dropWhile, ha]
    simp [ih (fun x hx => h₁ x (by simp [hx]))]

/-- Helper: round-trip of `generate_filename` through `parse_filename` for
components drawn from the character classes of the parsing pattern. -/
theorem parse_generate_roundtrip (t m id : String)
    (ht0 : t.data ≠ []) (ht : ∀ c ∈ t.data, isLowerAZ c = true)
    (hm0 : m.data ≠ []) (hm : ∀ c ∈ m.data, isLowerAZ c = true)
    (hid0 : id.data ≠ []) (hid : ∀ c ∈ id.data, isWordChar c = true) :
    parse_filename (generate_filename t m id) = some (t, m, id) := by
  have hdata : (generate_filename t m id).data =
      '(' :: (t.data ++ '-' :: (m.data ++ ')' :: '-' :: (id.data ++ ".json".data))) := by
    simp [generate_filename, String.data_append]
  rw [parse_filename, hdata]
  rw [parseFilenameChars]
  rw [takeWhile_append_stop isLowerAZ t.data '-' _ ht (by decide),
      dropWhile_append_stop isLowerAZ t.data '-' _ ht (by decide)]
  simp only [if_pos rfl]
  rw [takeWhile_append_stop isLowerAZ m.data ')' _ hm (by decide),
      dropWhile_append_stop isLowerAZ m.data ')' _ hm (by decide)]
  have h3 : (id.data ++ ".json".data).takeWhile isWordChar = id.data := by
    have h5 : (".json".data : List Char) = '.' :: "json".data := rfl
    rw [h5, takeWhile_append_stop isWordChar id.data '.' _ hid (by decide)]
  have h4 : (id.data ++ ".json".data).dropWhile isWordChar = ".json".data := by
    have h5 : (".json".data : List Char) = '.' :: "json".data := rfl
    rw [h5, dropWhile_append_stop isWordChar id.data '.' _ hid (by decide)]
  simp only [h3, h4]
  have e1 : (!t.data.isEmpty) = true := by
    cases h : t.data with
    | nil => exact absurd h ht0
    | cons a as => simp
  have e2 : (!m.data.isEmpty) = true := by
    cases h : m.data with
    | nil => exact absurd h hm0
    | cons a as => simp
  have e3 : (!id.data.isEmpty) = true := by
    cases h : id.data with
    | nil => exact absurd h hid0
    | cons a as => simp
  simp [e1, e2, e3]

/-- C3 (amended): for every dbtype in the four underscore-free members of the
enum, every dbmodel in one or rac, and every identifier matching the
identifier pattern, parsing the generated filename returns exactly the
triple.  The legacy alias oracle_db_file is excluded: its underscore falls
outside the `[a-z]+` dbtype group of `parse_filename` (see the
counterexample theorem). -/
theorem filename_roundtrip_of_underscore_free (t m id : String)
    (ht : t ∈ ["oracle", "mysql", "postgresql", "sqlserver"])
    (hm : m ∈ ["one", "rac"])
    (hid : isValidIdentifier id = true) :
    parse_filename (generate_filename t m id) = some (t, m, id) := by
  have hid0 : id.data ≠ [] := by
    have := (Bool.and_eq_true _ _).mp hid |>.1
    cases h : id.data with
    | nil => rw [isValidIdentifier] at hid; rw [h] at hid; simp at hid
    | cons a as => simp
  have hidw : ∀ c ∈ id.data, isWordChar c = true := by
    have := (Bool.and_eq_true _ _).mp hid |>.2
    exact List.all_eq_true.mp this
  simp only [List.mem_cons, List.not_mem_nil, or_false] at ht hm
  rcases ht with ht | ht | ht | ht <;> rcases hm with hm | hm <;> subst ht <;> subst hm <;>
    exact parse_generate_roundtrip _ _ _ (by decide) (by decide)
      (by decide) (by decide) hid0 hidw

/-- C3 witness: the round-trip at a concrete valid triple. -/
theorem filename_roundtrip_witness :
    parse_filename (generate_filename "oracle" "one" "db1_20250826") =
      some ("oracle", "one", "db1_20250826") :=
  filename_roundtrip_of_underscore_free "oracle" "one" "db1_20250826"
    (by decide) (by decide) (by decide)

/-- C3 counterexample: the legacy dbtype oracle_db_file is in the supported
enum and "x" matches the identifier pattern, yet the round-trip fails —
`parse_filename` returns none on the generated filename because the dbtype
group of its pattern is `[a-z]+`, which cannot contain the underscore. -/
theorem filename_roundtrip_fails_for_legacy_alias :
    "oracle_db_file" ∈ validDbtypes ∧ isValidIdentifier "x" = true ∧
      parse_filename (generate_filename "oracle_db_file" "one" "x") = none := by
  refine ⟨by decide, by decide, by decide⟩

/-! ## Manifest model (`file_status.json`)

A decoded manifest is modelled as a record of optional fields: `none` means
the key is absent, `some v` that the key is present with string value `v`
(the flows under verification only ever read these keys with string values;
`otherKeys` records whether the dict carries any further keys, which is what
Python's truthiness of the dict depends on). -/

/-- Entry of the manifest `files` field in its array form. -/
structure RawFileEntry where
  filename : Option String
  status : Option String
  description : Option String
  fexists : Option Bool
  size : Option Nat
  modified : Option String
deriving DecidableEq, Repr

/-- Manifest `files` field: array form or already-keyed map form. -/
inductive FilesField
  | arr (entries : List RawFileEntry)
  | obj (entries : List (String × RawFileEntry))
deriving DecidableEq, Repr

/-- Decoded `file_status.json` content. -/
structure Manifest where
  hostname : Option String
  sid : Option String
  oracle_sid : Option String
  collect_date : Option String
  inspection_time : Option String
  db_model : Option String
  dbname : Option String
  files : Option FilesField
  otherKeys : Bool
deriving DecidableEq, Repr

/-- Outcome of attempting to read `directory/file_status.json`:
the file may be absent, unreadable (I/O or JSON decode error), or loaded. -/
inductive ManifestLoad
  | missing
  | unreadable
  | loaded (m : Manifest)
deriving DecidableEq, Repr

/-- Python truthiness of the decoded manifest dict: an empty dict is falsy. -/
def manifestTruthy (m : Manifest) : Bool :=
  m.hostname.isSome || m.sid.isSome || m.oracle_sid.isSome ||
  m.collect_date.isSome || m.inspection_time.isSome || m.db_model.isSome ||
  m.dbname.isSome || m.files.isSome || m.otherKeys

/-! ## RacNodeInfo (`rac_parser.py`) -/

/-- State of a `RacNodeInfo` object after `__init__` ran `_parse_dirname`
and `_load_file_status`. -/
structure RacNodeInfo where
  directory : String
  dirname : String
  hostname : Option String
  sid : Option String
  dbname : Option String
  collect_date : Option String
  file_status_data : Option Manifest
deriving DecidableEq, Repr

/-- Construction of a `RacNodeInfo`: `_parse_dirname` sets hostname, sid,
collect_date and dbname (sid with the trailing digit run stripped) from an
underscore-split of the directory base name when it has at least 3 parts;
`_load_file_status` then lets the manifest's hostname override, lets
oracle_sid (first) or sid override the sid, and re-derives dbname from the
final sid when that sid is truthy. -/
def mkRacNodeInfo (directory : String) (load : ManifestLoad) : RacNodeInfo :=
  let dirname := String.mk (basenameChars directory.data)
  let parts := splitOnChar '_' dirname.data
  let h0 : Option String :=
    if 3 ≤ parts.length then some (String.mk (parts.headD [])) else none
  let s0 : Option String :=
    if 3 ≤ parts.length then some (String.mk ((parts.drop 1).headD [])) else none
  let db0 : Option String :=
    if 3 ≤ parts.length then
      some (stripTrailingDigitsS (String.mk ((parts.drop 1).headD [])))
    else none
  let d0 : Option String :=
    if 3 ≤ parts.length then some (String.mk ((parts.drop 2).headD [])) else none
  match load with
  | .loaded m =>
    let h1 := match m.hostname with | some h => some h | none => h0
    let s1 := match m.oracle_sid with
              | some s => some s
              | none => match m.sid with | some s => some s | none => s0
    let db1 := if pyTruthy s1 then some (stripTrailingDigitsS (s1.getD "")) else db0
    ⟨directory, dirname, h1, s1, db1, d0, some m⟩
  | _ => ⟨directory, dirname, h0, s0, db0, d0, none⟩

/-- `RacNodeInfo.is_valid`: all of hostname, sid, dbname and the loaded
manifest dict must be truthy. -/
def RacNodeInfo.is_valid (n : RacNodeInfo) : Bool :=
  pyTruthy n.hostname && pyTruthy n.sid && pyTruthy n.dbname &&
    (match n.file_status_data with
     | some m => manifestTruthy m
     | none => false)

/-! ## RacClusterInfo (`rac_parser.py`) -/

/-- State of a `RacClusterInfo` after `_extract_cluster_info`. -/
structure RacClusterInfo where
  nodes : List RacNodeInfo
  dbname : Option String
  cluster_name : String
  node_count : Nat
  collect_date : Option String
deriving DecidableEq, Repr

/-- Truthy dbname values of the nodes, in node order (feeds the `set(...)`
in `_extract_cluster_info`). -/
def nodeDbnames (nodes : List RacNodeInfo) : List String :=
  nodes.filterMap fun n => if pyTruthy n.dbname then some (n.dbname.getD "") else none

/-- Truthy collect_date values of the nodes, in node order. -/
def nodeDates (nodes : List RacNodeInfo) : List String :=
  nodes.filterMap fun n =>
    if pyTruthy n.collect_date then some (n.collect_date.getD "") else none

/-- `RacClusterInfo.__init__` together with `_extract_cluster_info`.  Raises
(modelled as `.error`) on an empty node list, and when the first node's
hostname is Python `None` (the `re.sub` deriving the cluster name would raise
TypeError, which nothing catches inside the class).  The dbname picked for an
inconsistent cluster is `list(set)[0]` in the source — set iteration order is
unspecified there; we model it as the first occurrence.  The cluster date is
the unique date when the nodes agree and otherwise the maximum of the distinct
truthy dates (`max(dates) if dates else None`). -/
def mkRacClusterInfo (nodes : List RacNodeInfo) : Except String RacClusterInfo :=
  if nodes.isEmpty then .error "RAC cluster needs at least one node"
  else
    match nodes.head?.bind (·.hostname) with
    | none => .error "TypeError: expected string or bytes-like object"
    | some h =>
      let dbnames := dedupKeepFirst (nodeDbnames nodes)
      let dbname : Option String :=
        match dbnames with
        | [d] => some d
        | [] => none
        | d :: _ => some d
      let dates := dedupKeepFirst (nodeDates nodes)
      let cdate : Option String :=
        match dates with
        | [d] => some d
        | _ => pyMaxString dates
      .ok ⟨nodes, dbname, stripTrailingDigitsS h, nodes.length, cdate⟩

/-- `RacClusterInfo.validate_consistency`: advisory issues; never raises. -/
def validate_consistency (c : RacClusterInfo) : Bool × List String :=
  let issues0 : List String :=
    if 1 < (dedupKeepFirst (nodeDbnames c.nodes)).length then ["dbname mismatch"] else []
  let issues1 : List String :=
    if 1 < (dedupKeepFirst (nodeDates c.nodes)).length then ["collect_date mismatch"] else []
  let issues2 : List String :=
    c.nodes.filterMap fun n =>
      match n.file_status_data with
      | some m => if manifestTruthy m then none else some "node missing file_status.json"
      | none => some "node missing file_status.json"
  let dbmodels := dedupKeepFirst (c.nodes.filterMap fun n =>
    match n.file_status_data with
    | some m => if manifestTruthy m then m.db_model else none
    | none => none)
  let issues3 : List String :=
    if 1 < dbmodels.length then ["db_model mismatch"]
    else if !dbmodels.isEmpty && !dbmodels.contains "rac" then ["db_model is not rac"]
    else []
  let issues := issues0 ++ issues1 ++ issues2 ++ issues3
  (issues.isEmpty, issues)

/-- `RacClusterInfo.generate_identifier`: join the truthy fields among
cluster_name, dbname and collect_date with underscores; when all are empty,
fall back to the first node's directory base name, or the literal
unknown_rac for an empty cluster. -/
def cluster_generate_identifier (c : RacClusterInfo) : String :=
  let parts : List String :=
    (if c.cluster_name.data.isEmpty then [] else [c.cluster_name]) ++
    (if pyTruthy c.dbname then [c.dbname.getD ""] else []) ++
    (if pyTruthy c.collect_date then [c.collect_date.getD ""] else [])
  if !parts.isEmpty then
    String.mk (joinWithChar '_' (parts.map (·.data)))
  else
    match c.nodes with
    | n :: _ => n.dirname
    | [] => "unknown_rac"

/-! ## RacParser (`rac_parser.py`) -/

/-- Per-directory input to the RAC pipeline: the directory path, whether it
exists on disk, the outcome of loading its manifest, and the names of the
plain files present in it (used only by the required-file checks of the
single-node path; the RAC path never consults it). -/
structure RacDirInput where
  path : String
  dirExists : Bool
  load : ManifestLoad
  diskFiles : List String
deriving DecidableEq, Repr

/-- Resolution of one directory inside `RacParser.parse_rac_directories`:
a missing directory is skipped, and a constructed node is kept only when
`is_valid` holds. -/
def resolveNode (d : RacDirInput) : Option RacNodeInfo :=
  if !d.dirExists then none
  else
    let n := mkRacNodeInfo d.path d.load
    if n.is_valid then some n else none

/-- `RacParser.parse_rac_directories`: raises on an empty directory list and
when no directory resolves to a valid node; otherwise builds the cluster from
the valid nodes in input order (the consistency check that follows is
log-only). -/
def parse_rac_directories (dirs : List RacDirInput) : Except String RacClusterInfo :=
  if dirs.isEmpty then .error "at least one RAC node directory required"
  else
    let nodes := dirs.filterMap resolveNode
    if nodes.isEmpty then .error "no valid RAC nodes"
    else mkRacClusterInfo nodes

/-- Prefix of a character list before its first '.', the semantics of
`filename.split('.')[0]` used as the file key in `merge_node_files`. -/
def splitDotHead (s : List Char) : List Char := s.takeWhile (· ≠ '.')

/-- Stem of a filename in the sense of `pathlib.Path.stem`: the base name
without its last dot-suffix, where a dot at position 0 does not open a
suffix. -/
def pathStem (s : List Char) : List Char :=
  let name := basenameChars s
  match name.reverse.dropWhile (· ≠ '.') with
  | '.' :: rest => if rest.isEmpty then name else rest.reverse
  | _ => name

/-- Insertion into an association list with Python-dict semantics: an
existing key keeps its position and gets the new value, a new key is
appended. -/
def dictInsert {α : Type} : List (String × α) → String → α → List (String × α)
  | [], k, v => [(k, v)]
  | (k0, v0) :: t, k, v =>
    if k0 = k then (k0, v) :: t else (k0, v0) :: dictInsert t k v

/-- Value stored in a node's files map by `RacParser.merge_node_files`. -/
inductive MergedFileVal
  | fromArr (filename status description : String) (fexists : Bool) (size : Nat)
      (path : String)
  | fromObj (entry : RawFileEntry) (path : String)
deriving DecidableEq, Repr

/-- Array branch of the files normalization in `merge_node_files`: an entry
contributes only when it carries both a filename key and a status key; the
map key is the part of the filename before the first dot. -/
def mergeFilesArr (dir : String) (entries : List RawFileEntry) :
    List (String × MergedFileVal) :=
  entries.foldl
    (fun acc e =>
      match e.filename, e.status with
      | some fn, some st =>
        dictInsert acc (String.mk (splitDotHead fn.data))
          (.fromArr fn st (e.description.getD "") (e.fexists.getD false)
            (e.size.getD 0) (joinPath dir fn))
      | _, _ => acc)
    []

/-- Map branch of the files normalization in `merge_node_files`: every entry
is kept under its existing key, and a path is attached from the entry's
filename, defaulting to key.txt when the filename key is absent. -/
def mergeFilesObj (dir : String) (entries : List (String × RawFileEntry)) :
    List (String × MergedFileVal) :=
  entries.foldl
    (fun acc kv =>
      dictInsert acc kv.1
        (.fromObj kv.2 (joinPath dir (kv.2.filename.getD (kv.1 ++ ".txt")))))
    []

/-- One record of the metainfo array produced by `merge_node_files`. -/
structure RacNodeMeta where
  hostname : Option String
  sid : Option String
  dbname : Option String
  collect_date : Option String
  source_dir : String
  node_number : Nat
  node_name : String
  files : List (String × MergedFileVal)
  validation_status : String
deriving DecidableEq, Repr

/-- Loop body of `RacParser.merge_node_files` for one node at 1-based index
idx: identity fields, node_info, the normalized files map, and a validation
status reflecting `is_valid` (and nothing else — required files on disk are
not consulted here). -/
def mergeNodeRecord (idx : Nat) (node : RacNodeInfo) : RacNodeMeta :=
  let files : List (String × MergedFileVal) :=
    match node.file_status_data with
    | some m =>
      match m.files with
      | some (.arr l) => mergeFilesArr node.directory l
      | some (.obj l) => mergeFilesObj node.directory l
      | none => []
    | none => []
  ⟨node.hostname, node.sid, node.dbname, node.collect_date, node.directory,
   idx, "node" ++ toString idx, files,
   if node.is_valid then "passed" else "failed"⟩

/-- `RacParser.merge_node_files`: one record per cluster node, with 1-based
node numbers in node order. -/
def merge_node_files (c : RacClusterInfo) : List RacNodeMeta :=
  c.nodes.enum.map fun p => mergeNodeRecord (p.1 + 1) p.2

/-! ## Auto-discovery (`RacParser.detect_rac_nodes`) -/

/-- Matching of a directory base name against the auto-discovery regex.  In that pattern each greedy
digit run is followed by a literal outside its class and therefore admits no
backtracking, while the lazy groups are tried shortest-first; matching is
thus equivalent to this search, which tries the first lazy group's length in
increasing order and, inside it, the second lazy group's length in
increasing order.  The returned triple is groups 1, 3 and 5. -/
def racTailMatch (r : List Char) : Option (List Char × List Char) :=
  (List.range r.length).findSome? fun i =>
    let g3 := r.take (i + 1)
    let rest := r.drop (i + 1)
    let d := rest.takeWhile Char.isDigit
    let rest2 := rest.dropWhile Char.isDigit
    if d.isEmpty then none
    else
      match rest2 with
      | c :: tail =>
        if c = '_' && tail.length == 8 && tail.all Char.isDigit then
          some (g3, tail)
        else none
      | [] => none

/-- Head part of the auto-discovery match; see `racTailMatch`. -/
def racNameMatch (s : List Char) : Option (List Char × List Char × List Char) :=
  (List.range s.length).findSome? fun i =>
    let g1 := s.take (i + 1)
    let rest := s.drop (i + 1)
    let d := rest.takeWhile Char.isDigit
    let rest2 := rest.dropWhile Char.isDigit
    if d.isEmpty then none
    else
      match rest2 with
      | c :: tail =>
        if c = '_' then (racTailMatch tail).map fun g => (g1, g.1, g.2)
        else none
      | [] => none

/-- One entry of the base directory listing seen by `detect_rac_nodes`. -/
structure BaseEntry where
  name : String
  isDir : Bool
deriving DecidableEq, Repr

/-- Group key built by `detect_rac_nodes`: the concatenation
group1_group3_group5.  Note this conflates distinct triples whose
concatenations coincide. -/
def racGroupKey (g1 g3 g5 : List Char) : String :=
  String.mk (g1 ++ '_' :: (g3 ++ '_' :: g5))

/-- Appending to a group in an association list of groups (Python dict of
lists: insertion order of keys, append order inside a group). -/
def groupInsert : List (String × List String) → String → String →
    List (String × List String)
  | [], k, v => [(k, [v])]
  | (k0, vs) :: t, k, v =>
    if k0 = k then (k0, vs ++ [v]) :: t else (k0, vs) :: groupInsert t k v

/-- Subdirectory paths of the base listing, in listing order. -/
def subdirPaths (baseDir : String) (entries : List BaseEntry) : List String :=
  (entries.filter (·.isDir)).map fun e => joinPath baseDir e.name

/-- Grouping of the matching subdirectories by `racGroupKey`. -/
def buildRacGroups (paths : List String) : List (String × List String) :=
  paths.foldl
    (fun gs p =>
      match racNameMatch (basenameChars p.data) with
      | some g => groupInsert gs (racGroupKey g.1 g.2.1 g.2.2) p
      | none => gs)
    []

/-- First group of maximal size, the behaviour of Python
`max(values, key=len)` over the dict's insertion order. -/
def largestGroup (g : String × List String) (gt : List (String × List String)) :
    String × List String :=
  gt.foldl (fun best x => if best.2.length < x.2.length then x else best) g

/-- Insertion step of the string sort used to model Python `sorted`. -/
def insertStr (x : String) : List String → List String
  | [] => [x]
  | y :: ys => if strLeB x.data y.data then x :: y :: ys else y :: insertStr x ys

/-- Ascending sort of strings under Python's string order. -/
def sortStr : List String → List String
  | [] => []
  | x :: xs => insertStr x (sortStr xs)

/-- Final selection of `detect_rac_nodes` over the built groups: the first
largest group, sorted, when it has more than one member; empty otherwise. -/
def detectCore (groups : List (String × List String)) : List String :=
  match groups with
  | [] => []
  | g :: gt =>
    if 1 < (largestGroup g gt).2.length then sortStr (largestGroup g gt).2
    else []

/-- `RacParser.detect_rac_nodes`: filter the base listing to directories,
group the names matching the RAC pattern by `racGroupKey`, and return the
first largest group sorted by name when it has at least two members; return
the empty list otherwise (including when the base directory is absent). -/
def detect_rac_nodes (baseDir : String) (baseExists : Bool)
    (entries : List BaseEntry) : List String :=
  if !baseExists then []
  else detectCore (buildRacGroups (subdirPaths baseDir entries))

/-! ## DatabaseMetaParser (`parser.py`) -/

/-- Identity fields extracted from a directory name. -/
structure DirIdent where
  hostname : String
  sid : String
  dbname : String
  collect_date : String
deriving DecidableEq, Repr

/-- `DatabaseMetaParser._extract_identifier_from_dir`: split the directory
name on underscores; with at least three parts whose last is an 8-digit
date, the first part is the hostname and the middle parts (joined when there
are several) are both sid and dbname; otherwise fall back to unknown values
and the current date. -/
def extract_identifier_from_dir (today : String) (dirName : String) : DirIdent :=
  let parts := splitOnChar '_' dirName.data
  if 3 ≤ parts.length then
    let datePart := parts.getLastD []
    if isDate8 datePart then
      let hostname := parts.headD []
      let mid :=
        if 3 < parts.length then joinWithChar '_' (parts.drop 1).dropLast
        else (parts.drop 1).headD []
      ⟨String.mk hostname, String.mk mid, String.mk mid, String.mk datePart⟩
    else ⟨"unknown", "unknown", "unknown", today⟩
  else ⟨"unknown", "unknown", "unknown", today⟩

/-- Replacement of every character outside `[a-zA-Z0-9_-]` by an underscore,
the `re.sub` sanitization of `_generate_identifier`. -/
def sanitize_identifier (s : String) : String :=
  String.mk (s.data.map fun c => if isWordChar c then c else '_')

/-- `DatabaseMetaParser._generate_identifier`: a truthy stored identifier is
returned unchanged (no sanitization); otherwise the identifier is derived
from the first import directory's base name — hostname_sid_date in one mode,
dbname_date in rac mode — and sanitized. -/
def generate_identifier_ (identifier : Option String) (db_model today
    firstDirName : String) : String :=
  if pyTruthy identifier then identifier.getD ""
  else
    let e := extract_identifier_from_dir today firstDirName
    if db_model = "one" then
      sanitize_identifier (e.hostname ++ "_" ++ e.sid ++ "_" ++ e.collect_date)
    else
      sanitize_identifier (e.dbname ++ "_" ++ e.collect_date)

/-- Value of a node's files map produced by
`DatabaseMetaParser.parse_file_status`. -/
structure OneMetaFile where
  path : String
  fexists : Bool
  size : Nat
  modified : Option String
deriving DecidableEq, Repr

/-- One metainfo record produced by the single-node path. -/
structure OneMetaItem where
  hostname : String
  sid : String
  dbname : String
  collect_date : String
  source_dir : String
  node_info : Option (Nat × String)
  files : List (String × OneMetaFile)
  validation_status : Option String
deriving DecidableEq, Repr

/-- Array branch of the files normalization in `parse_file_status`: every
entry with a non-empty filename is kept (no status key is required, unlike
`merge_node_files`), keyed by the filename's stem. -/
def oneFilesFromArr (dir : String) (entries : List RawFileEntry) :
    List (String × OneMetaFile) :=
  entries.foldl
    (fun acc e =>
      let filename := e.filename.getD ""
      if filename.data.isEmpty then acc
      else
        dictInsert acc (String.mk (pathStem filename.data))
          ⟨joinPath dir filename, e.fexists.getD false, e.size.getD 0, e.modified⟩)
    []

/-- Map branch of the files normalization in `parse_file_status`. -/
def oneFilesFromObj (dir : String) (entries : List (String × RawFileEntry)) :
    List (String × OneMetaFile) :=
  entries.foldl
    (fun acc kv =>
      let filename := kv.2.filename.getD ""
      dictInsert acc kv.1
        ⟨if filename.data.isEmpty then "" else joinPath dir filename,
         kv.2.fexists.getD false, kv.2.size.getD 0, kv.2.modified⟩)
    []

/-- Date derived from the first ten characters of `inspection_time` with the
dashes removed, when that field is long enough. -/
def dateFromInspectionTime (it : String) : Option String :=
  if 10 ≤ it.data.length then
    some (String.mk ((it.data.take 10).filter (· ≠ '-')))
  else none

/-- `DatabaseMetaParser.parse_file_status`: requires a loadable manifest with
a hostname key, one of sid or oracle_sid, one of collect_date or
inspection_time, and a files key; builds a metainfo record whose identity
fields prefer the manifest values (by Python or-chains over truthiness) with
directory-derived fallbacks, and normalizes the files field.  The
node_info subrecord is attached only in rac mode with a truthy node number. -/
def parse_file_status (today db_model : String) (node_number : Option Nat)
    (directory : String) (load : ManifestLoad) : Option OneMetaItem :=
  match load with
  | .missing => none
  | .unreadable => none
  | .loaded m =>
    if m.hostname.isNone then none
    else if m.sid.isNone && m.oracle_sid.isNone then none
    else if m.collect_date.isNone && m.inspection_time.isNone then none
    else if m.files.isNone then none
    else
      let e := extract_identifier_from_dir today (String.mk (basenameChars directory.data))
      let actual_sid :=
        if pyTruthy m.sid then m.sid.getD ""
        else if pyTruthy m.oracle_sid then m.oracle_sid.getD ""
        else e.sid
      let d1 : String :=
        if pyTruthy m.collect_date then m.collect_date.getD ""
        else
          match m.inspection_time with
          | some it => if pyTruthy (dateFromInspectionTime it) then
                         (dateFromInspectionTime it).getD ""
                       else ""
          | none => ""
      let actual_date := if d1.data.isEmpty then e.collect_date else d1
      let files : List (String × OneMetaFile) :=
        match m.files with
        | some (.arr l) => oneFilesFromArr directory l
        | some (.obj l) => oneFilesFromObj directory l
        | none => []
      some
        ⟨m.hostname.getD e.hostname, actual_sid, m.dbname.getD e.dbname,
         actual_date, directory,
         (if db_model = "rac" then
            match node_number with
            | some k => if k ≠ 0 then some (k, "node" ++ toString k) else none
            | none => none
          else none),
         files, none⟩

/-- Required-file lists of `Config.SUPPORTED_DATABASES`. -/
def required_files : String → List String
  | "oracle" => ["file_status.json", "01_system_info.txt", "02_hardware_info.json"]
  | "oracle_db_file" => ["file_status.json", "01_system_info.txt", "02_hardware_info.json"]
  | "mysql" => ["file_status.json", "mysql_status.json"]
  | "postgresql" => ["file_status.json", "pg_status.json"]
  | "sqlserver" => ["file_status.json", "sqlserver_status.json"]
  | _ => []

/-- `DatabaseMetaParser.validate_directory`: true when every dbtype-specific
required file exists on disk and every recorded file entry with a non-empty
path has an exists flag matching the disk (`fs` is the set of existing file
paths). -/
def validate_directory (fs : List String) (dbtype : String) (directory : String)
    (item : OneMetaItem) : Bool :=
  ((required_files dbtype).all fun rf => fs.contains (joinPath directory rf)) &&
    (item.files.all fun kv =>
      if kv.2.path.data.isEmpty then true
      else kv.2.fexists == fs.contains kv.2.path)

/-- Copy of a metainfo record with its validation status set. -/
def withStatus (item : OneMetaItem) (st : String) : OneMetaItem :=
  ⟨item.hostname, item.sid, item.dbname, item.collect_date, item.source_dir,
   item.node_info, item.files, some st⟩

/-- Per-directory step of the single-node loop in
`DatabaseMetaParser.parse`: a failed `parse_file_status` aborts (None); a
failed directory validation only marks the record as failed, which is still
included. -/
def processOneDir (today dbtype : String) (fs : List String)
    (directory : String) (load : ManifestLoad) : Option OneMetaItem :=
  (parse_file_status today "one" none directory load).map fun item =>
    withStatus item (if validate_directory fs dbtype directory item then "passed" else "failed")

/-! ## Document-level schema validation (`JsonSchemaValidator.validate_json`)

The validator inspects the assembled JSON document generically, so the
document is modelled by its own view types: `none` in an optional field
stands for an absent key (or a null value, which fails the same check with a
different log message). -/

/-- node_info view inside a document record. -/
structure VNodeInfo where
  node_number : Option Int
  node_name : Option String
deriving DecidableEq, Repr

/-- View of one metainfo record as seen by the validator: the files field is
reduced to its keys because the validator only checks that it is a dict. -/
structure VItem where
  hostname : Option String
  sid : Option String
  dbname : Option String
  collect_date : Option String
  source_dir : Option String
  files : Option (List String)
  node_info : Option VNodeInfo
deriving DecidableEq, Repr

/-- View of the assembled document. -/
structure VDoc where
  version : Option String
  dbtype : Option String
  dbmodel : Option String
  identifier : Option String
  timestamp : Option String
  metainfo : Option (List VItem)
deriving DecidableEq, Repr

/-- Per-record checks of `validate_json` (required fields, 8-digit
collect_date, dict-typed files, and in rac mode a complete node_info with a
node number between 1 and 4). -/
def validateItem (dbmodel : String) (it : VItem) : Bool :=
  it.hostname.isSome && it.sid.isSome && it.dbname.isSome &&
  it.collect_date.isSome && it.source_dir.isSome && it.files.isSome &&
  isDate8 (it.collect_date.getD "").data &&
  (if dbmodel = "rac" then
     match it.node_info with
     | some ni =>
       ni.node_number.isSome && ni.node_name.isSome &&
       (1 ≤ ni.node_number.getD 0 && ni.node_number.getD 0 ≤ 4)
     | none => false
   else true)

/-- `JsonSchemaValidator.validate_json` (its boolean outcome; the error
strings of the source are log-only and abbreviated here): required top-level
keys, non-empty version, dbtype in the enum, dbmodel in one or rac, the
identifier pattern, non-empty metainfo, exactly one record in one mode, at
least two records in rac mode, and the per-record checks. -/
def validate_json (d : VDoc) : Bool :=
  d.version.isSome && d.dbtype.isSome && d.dbmodel.isSome &&
  d.identifier.isSome && d.timestamp.isSome && d.metainfo.isSome &&
  !(d.version.getD "").data.isEmpty &&
  validDbtypes.contains (d.dbtype.getD "") &&
  ["one", "rac"].contains (d.dbmodel.getD "") &&
  isValidIdentifier (d.identifier.getD "") &&
  !(d.metainfo.getD []).isEmpty &&
  (if d.dbmodel.getD "" = "one" then (d.metainfo.getD []).length == 1 else true) &&
  (if d.dbmodel.getD "" = "rac" then 2 ≤ (d.metainfo.getD []).length else true) &&
  (d.metainfo.getD []).all (validateItem (d.dbmodel.getD ""))

/-- Copy of a document with its identifier replaced. -/
def setIdentifier (d : VDoc) (id0 : String) : VDoc :=
  ⟨d.version, d.dbtype, d.dbmodel, some id0, d.timestamp, d.metainfo⟩

/-- Outcome of a `generate_meta_json` call: whether the document was written
to the output file and whether the call reported success. -/
structure GenResult where
  wrote : Bool
  success : Bool
deriving DecidableEq, Repr

/-- `DatabaseMetaParser.generate_meta_json`: finalizes the identifier,
validates the document, and on validation failure logs and returns False
WITHOUT writing; only a valid document is written.  The returned document is
the final document state (what is written in the success case). -/
def generic_generate_meta_json (identifier : Option String)
    (db_model today firstDirName : String) (d : VDoc) : GenResult × VDoc :=
  let fid := generate_identifier_ identifier db_model today firstDirName
  let d1 := setIdentifier d fid
  if validate_json d1 then (⟨true, true⟩, d1) else (⟨false, false⟩, d1)

/-! ## MySQLMetaParser (`mysql/parser.py`) -/

/-- `MySQLMetaParser._extract_identifier_from_dir`: like the generic
extractor but with a fixed fallback dbname of mysql. -/
def mysql_extract_identifier_from_dir (today : String) (dirName : String) :
    String × String × String :=
  let parts := splitOnChar '_' dirName.data
  if 3 ≤ parts.length then
    let datePart := parts.getLastD []
    if isDate8 datePart then
      let hostname := parts.headD []
      let mid :=
        if 3 < parts.length then joinWithChar '_' (parts.drop 1).dropLast
        else (parts.drop 1).headD []
      (String.mk hostname, String.mk mid, String.mk datePart)
    else ("unknown", "mysql", today)
  else ("unknown", "mysql", today)

/-- `MySQLMetaParser._generate_identifier`: hostname_dbname_date, sanitized;
a truthy stored identifier is returned unchanged. -/
def mysql_generate_identifier (identifier : Option String) (today
    firstDirName : String) : String :=
  if pyTruthy identifier then identifier.getD ""
  else
    let e := mysql_extract_identifier_from_dir today firstDirName
    sanitize_identifier (e.1 ++ "_" ++ e.2.1 ++ "_" ++ e.2.2)

/-- `MySQLMetaParser.generate_meta_json`: finalizes the identifier when none
was supplied, validates the document but only LOGS a failure, and writes the
document unconditionally, returning True (barring I/O errors, which are
outside the model). -/
def mysql_generate_meta_json (identifier : Option String)
    (today firstDirName : String) (d : VDoc) : GenResult × VDoc :=
  let d1 :=
    if pyTruthy identifier then d
    else setIdentifier d (mysql_generate_identifier none today firstDirName)
  let _diag := validate_json d1
  (⟨true, true⟩, d1)

/-! ## RAC-mode assembly (`DatabaseMetaParser._parse_rac_mode`) -/

/-- Identifier finally placed in the document by a rac-mode run without an
override: `_parse_rac_mode` stores the cluster-generated identifier and
`_generate_identifier` returns it unchanged when truthy (no sanitization);
only when it is empty does the sanitized directory-name fallback apply. -/
def rac_mode_final_identifier (today : String) (dirs : List RacDirInput) :
    Except String String :=
  (parse_rac_directories dirs).map fun c =>
    generate_identifier_ (some (cluster_generate_identifier c)) "rac" today
      (String.mk (basenameChars ((dirs.head?.map (·.path)).getD "").data))

/-- Metainfo of a rac-mode run: the merged records of the parsed cluster. -/
def rac_mode_metainfo (dirs : List RacDirInput) :
    Except String (List RacNodeMeta) :=
  (parse_rac_directories dirs).map merge_node_files

/-! ## Theorems for C1: is schema-validation failure non-blocking? -/

/-- C1 counterexample: a document that fails schema validation (its metainfo
is empty) is NOT written by `DatabaseMetaParser.generate_meta_json`; the call
reports failure instead of persisting the document, contradicting the claim
that the document is persisted whenever validation fails. -/
theorem c1_generic_write_blocked_on_invalid_doc :
    validate_json ((generic_generate_meta_json (some "id1") "one" "20250101"
        "dir" ⟨some "2.0", some "oracle", some "one", some "temp", some "t",
          some []⟩).2) = false ∧
    (generic_generate_meta_json (some "id1") "one" "20250101" "dir"
        ⟨some "2.0", some "oracle", some "one", some "temp", some "t",
          some []⟩).1 = ⟨false, false⟩ := by
  constructor
  · decide
  · decide

/-- C1 (amended): schema-validation failure is blocking in the generic
`DatabaseMetaParser` — the document is not written and the run reports
failure — whereas `MySQLMetaParser.generate_meta_json` writes the document
and reports success regardless of the validation outcome, which it only
logs. -/
theorem c1_validation_blocking_generic_nonblocking_mysql :
    (∀ (i : Option String) (m t f : String) (d : VDoc),
        validate_json ((generic_generate_meta_json i m t f d).2) = false →
        (generic_generate_meta_json i m t f d).1 = ⟨false, false⟩) ∧
    (∀ (i : Option String) (t f : String) (d : VDoc),
        (mysql_generate_meta_json i t f d).1 = ⟨true, true⟩) := by
  constructor
  · intro i m t f d h
    rw [generic_generate_meta_json] at h ⊢
    cases hv : validate_json (setIdentifier d (generate_identifier_ i m t f)) with
    | false => simp [hv]
    | true => simp [hv] at h
  · intro i t f d
    rfl

/-- C1 witness: the amended theorem at a concrete invalid document. -/
theorem c1_validation_blocking_witness :
    (generic_generate_meta_json (some "id1") "one" "20250101" "dir"
        ⟨some "2.0", some "oracle", some "one", some "temp", some "t",
          some []⟩).1 = ⟨false, false⟩ ∧
    (mysql_generate_meta_json (some "id1") "20250101" "dir"
        ⟨some "2.0", some "mysql", some "one", some "temp", some "t",
          some []⟩).1 = ⟨true, true⟩ :=
  ⟨c1_validation_blocking_generic_nonblocking_mysql.1 (some "id1") "one"
      "20250101" "dir" _ (by decide),
   c1_validation_blocking_generic_nonblocking_mysql.2 (some "id1") "20250101"
      "dir" _⟩

/-! ## Theorems for C2: identifier sanitization -/

/-- Helper: sanitization of a non-empty string always yields a string
matching the identifier pattern. -/
theorem sanitize_identifier_valid (s : String) (h : s.data ≠ []) :
    isValidIdentifier (sanitize_identifier s) = true := by
  rw [isValidIdentifier, sanitize_identifier]
  apply (Bool.and_eq_true _ _).mpr
  constructor
  · cases hd : s.data with
    | nil => exact absurd hd h
    | cons a as => simp [hd]
  · apply List.all_eq_true.mpr
    intro c hc
    obtain ⟨b, _, rfl⟩ := List.mem_map.mp hc
    cases hb : isWordChar b with
    | true => simp [hb]
    | false => simp [hb]; decide

/-- Helper: the one-mode auto identifier concatenates three fields with
underscores, so its data is never empty. -/
theorem one_mode_concat_nonempty (a b c : String) :
    (a ++ "_" ++ b ++ "_" ++ c).data ≠ [] := by
  intro h
  have h1 : ('_' : Char) ∈ (a ++ "_" ++ b ++ "_" ++ c).data := by
    simp [String.data_append]
  rw [h] at h1
  exact absurd h1 (List.not_mem_nil _)

/-- Helper: extraction of the identifier conjunct of `validate_json`. -/
theorem validate_json_identifier (d : VDoc) (h : validate_json d = true) :
    isValidIdentifier (d.identifier.getD "") = true := by
  rw [validate_json] at h
  simp only [Bool.and_eq_true] at h
  exact h.1.1.1.1.2

/-- C2 (amended): without an override, the one-mode auto identifier is
sanitized and always matches the identifier pattern, for arbitrary directory
names and clock dates; and in every mode, whenever
`DatabaseMetaParser.generate_meta_json` actually writes a document, that
document's identifier matches the pattern — in rac mode not because of
sanitization (the cluster-derived identifier is used unsanitized, see the
counterexample) but because schema validation blocks the write otherwise. -/
theorem c2_one_mode_identifier_sanitized_rac_gated :
    (∀ today dirName : String,
        isValidIdentifier (generate_identifier_ none "one" today dirName) = true) ∧
    (∀ (i : Option String) (m t f : String) (d : VDoc),
        (generic_generate_meta_json i m t f d).1.wrote = true →
        isValidIdentifier
          (((generic_generate_meta_json i m t f d).2).identifier.getD "") = true) := by
  constructor
  · intro today dirName
    rw [generate_identifier_]
    simp only [pyTruthy, Bool.false_eq_true, if_false, if_pos rfl]
    exact sanitize_identifier_valid _ (one_mode_concat_nonempty _ _ _)
  · intro i m t f d h
    rw [generic_generate_meta_json] at h ⊢
    cases hv : validate_json (setIdentifier d (generate_identifier_ i m t f)) with
    | false => rw [hv] at h; simp at h
    | true => simpa using validate_json_identifier _ hv

/-- C2 witness: the amended theorem at concrete inputs — a directory name
containing a space and a dot still yields a pattern-conforming identifier in
one mode, and a concrete written document has a conforming identifier. -/
theorem c2_one_mode_identifier_witness :
    isValidIdentifier
      (generate_identifier_ none "one" "20250101" "my host_o r.cl_20250826") = true ∧
    isValidIdentifier
      (((generic_generate_meta_json none "one" "20250101" "h_orcl_20250826"
          ⟨some "2.0", some "oracle", some "one", some "temp", some "t",
            some [⟨some "h", some "orcl", some "orcl", some "20250826",
              some "d", some [], none⟩]⟩).2).identifier.getD "") = true :=
  ⟨c2_one_mode_identifier_sanitized_rac_gated.1 "20250101" "my host_o r.cl_20250826",
   c2_one_mode_identifier_sanitized_rac_gated.2 none "one" "20250101"
     "h_orcl_20250826" _ (by decide)⟩

/-- C2 counterexample: a rac-mode run without an override on two directories
whose hostnames contain dots produces the unsanitized cluster identifier
oms.db_hnoms_20250826, which does not match the identifier pattern — the
rac path never applies the character replacement. -/
theorem c2_rac_identifier_unsanitized :
    (rac_mode_final_identifier "20250101"
      [⟨"oms.db1_hnoms1_20250826", true,
          .loaded ⟨none, some "hnoms1", none, none, none, none, none, none, false⟩, []⟩,
       ⟨"oms.db2_hnoms2_20250826", true,
          .loaded ⟨none, some "hnoms2", none, none, none, none, none, none, false⟩, []⟩]).toOption =
      some "oms.db_hnoms_20250826" ∧
    isValidIdentifier "oms.db_hnoms_20250826" = false := by
  constructor
  · decide
  · decide

/-! ## Theorems for C4, C5, C6: the RAC pipeline -/

/-- Helper: a directory that resolves yields a valid node. -/
theorem resolveNode_valid (d : RacDirInput) (n : RacNodeInfo)
    (h : resolveNode d = some n) : n.is_valid = true := by
  rw [resolveNode] at h
  by_cases hd : d.dirExists = true
  · simp [hd] at h
    obtain ⟨hv, hn⟩ := h
    subst hn
    exact hv
  · simp at hd
    simp [hd] at h

/-- Helper: every node surviving the filter of `parse_rac_directories` is
valid. -/
theorem mem_resolved_valid (dirs : List RacDirInput) (n : RacNodeInfo)
    (h : n ∈ dirs.filterMap resolveNode) : n.is_valid = true := by
  obtain ⟨d, _, hd⟩ := List.mem_filterMap.mp h
  exact resolveNode_valid d n hd

/-- Helper: a valid node has a hostname. -/
theorem valid_hostname_isSome (n : RacNodeInfo) (h : n.is_valid = true) :
    n.hostname.isSome = true := by
  rw [RacNodeInfo.is_valid] at h
  simp only [Bool.and_eq_true] at h
  have h1 := h.1.1.1
  cases hh : n.hostname with
  | none => simp [pyTruthy, hh] at h1
  | some s => rfl

/-- Helper: the nodes field of a successfully built cluster is the node list
it was built from. -/
theorem mkRacClusterInfo_nodes (nodes : List RacNodeInfo) (c : RacClusterInfo)
    (h : mkRacClusterInfo nodes = .ok c) : c.nodes = nodes := by
  rw [mkRacClusterInfo] at h
  by_cases he : nodes.isEmpty = true
  · rw [if_pos he] at h; cases h
  · rw [if_neg he] at h
    cases hh : nodes.head?.bind (·.hostname) with
    | none => rw [hh] at h; cases h
    | some s => rw [hh] at h; cases h; rfl

/-- Helper: building a cluster from a non-empty list of valid nodes
succeeds. -/
theorem mkRacClusterInfo_ok_of_valid (nodes : List RacNodeInfo)
    (h0 : nodes ≠ []) (h1 : ∀ n ∈ nodes, n.is_valid = true) :
    (mkRacClusterInfo nodes).toOption.isSome = true := by
  rw [mkRacClusterInfo]
  cases hn : nodes with
  | nil => exact absurd hn h0
  | cons a t =>
    have ha : a.hostname.isSome = true :=
      valid_hostname_isSome a (h1 a (by rw [hn]; exact List.mem_cons_self a t))
    cases hh : a.hostname with
    | none => rw [hh] at ha; cases ha
    | some s =>
      subst hn
      simp [List.head?, hh, Except.toOption]

/-- Helper: on success, the nodes of the parsed cluster are exactly the
directories that resolved, in input order. -/
theorem parse_rac_nodes (dirs : List RacDirInput) (c : RacClusterInfo)
    (h : parse_rac_directories dirs = .ok c) :
    c.nodes = dirs.filterMap resolveNode := by
  rw [parse_rac_directories] at h
  by_cases he : dirs.isEmpty = true
  · rw [if_pos he] at h; cases h
  · rw [if_neg he] at h
    by_cases hn : (dirs.filterMap resolveNode).isEmpty = true
    · rw [if_pos hn] at h; cases h
    · rw [if_neg hn] at h
      exact mkRacClusterInfo_nodes _ _ h

/-- Helper: `parse_rac_directories` fails exactly when no directory resolves
to a valid node. -/
theorem parse_rac_fails_iff (dirs : List RacDirInput) :
    (parse_rac_directories dirs).toOption = none ↔
      dirs.filterMap resolveNode = [] := by
  constructor
  · intro h
    by_contra hne
    have h0 : (dirs.filterMap resolveNode).isEmpty = false := by
      cases hl : dirs.filterMap resolveNode with
      | nil => exact absurd hl hne
      | cons a t => rfl
    have hde : dirs.isEmpty = false := by
      cases hd : dirs with
      | nil => rw [hd] at hne; simp at hne
      | cons a t => rfl
    simp only [parse_rac_directories, hde, h0, Bool.false_eq_true, if_false] at h
    have hok := mkRacClusterInfo_ok_of_valid (dirs.filterMap resolveNode) hne
      (mem_resolved_valid dirs)
    rw [h] at hok
    cases hok
  · intro h
    by_cases he : dirs.isEmpty = true
    · simp only [parse_rac_directories, he, if_true]
      rfl
    · simp only [parse_rac_directories, he, Bool.false_eq_true, if_false, h,
        List.isEmpty_nil, if_true]
      rfl

/-- C6: in cluster mode a directory that fails to resolve (missing
directory, missing or unloadable manifest, or incomplete identity fields,
i.e. `resolveNode` returns none) is excluded while the surviving nodes are
kept in input order, and `parse_rac_directories` raises if and only if zero
of the supplied directories resolve. -/
theorem c6_invalid_nodes_excluded_error_iff_none (dirs : List RacDirInput) :
    ((parse_rac_directories dirs).toOption = none ↔
       dirs.filterMap resolveNode = []) ∧
    (∀ c, parse_rac_directories dirs = .ok c →
       c.nodes = dirs.filterMap resolveNode) :=
  ⟨parse_rac_fails_iff dirs, fun c h => parse_rac_nodes dirs c h⟩

/-- C6 witness: two directories, one of which has no manifest, build a
one-node cluster; two unreadable directories raise. -/
theorem c6_invalid_nodes_excluded_witness :
    ((parse_rac_directories
        [⟨"h1_orcl1_20250826", true,
            .loaded ⟨none, some "orcl1", none, none, none, none, none, none, false⟩, []⟩,
         ⟨"h2_orcl2_20250826", true, .missing, []⟩]).toOption.map (·.nodes.length) =
       some 1) ∧
    ((parse_rac_directories
        [⟨"h1_orcl1_20250826", true, .missing, []⟩,
         ⟨"h2_orcl2_20250826", true, .unreadable, []⟩]).toOption = none) := by
  constructor
  · have h := (c6_invalid_nodes_excluded_error_iff_none
      [⟨"h1_orcl1_20250826", true,
          .loaded ⟨none, some "orcl1", none, none, none, none, none, none, false⟩, []⟩,
       ⟨"h2_orcl2_20250826", true, .missing, []⟩]).2
    decide
  · exact (c6_invalid_nodes_excluded_error_iff_none _).1.mpr (by decide)

/-- Helper: the 1-based indices attached by the merge loop over an
enumeration starting at n0 are n0+1, n0+2, ... -/
theorem enumFrom_merge_node_numbers (l : List RacNodeInfo) : ∀ n0 : Nat,
    ((List.enumFrom n0 l).map fun p => (mergeNodeRecord (p.1 + 1) p.2).node_number) =
      List.range' (n0 + 1) l.length := by
  induction l with
  | nil => intro n0; rfl
  | cons a t ih =>
    intro n0
    simp only [List.enumFrom, List.map, List.length_cons, List.range']
    exact congrArg (List.cons (n0 + 1)) (ih (n0 + 1))

/-- Helper: records merged from valid nodes carry a passed status. -/
theorem mergeNodeRecord_status (idx : Nat) (node : RacNodeInfo)
    (h : node.is_valid = true) :
    (mergeNodeRecord idx node).validation_status = "passed" := by
  rw [mergeNodeRecord]
  simp [h]

/-- Helper: membership in an enumeration projects to membership in the
list. -/
theorem snd_mem_of_mem_enumFrom (l : List RacNodeInfo) : ∀ (n0 : Nat)
    (p : Nat × RacNodeInfo), p ∈ List.enumFrom n0 l → p.2 ∈ l := by
  induction l with
  | nil => intro n0 p hp; cases hp
  | cons a t ih =>
    intro n0 p hp
    cases hp with
    | head => exact List.mem_cons_self a t
    | tail _ hp2 => exact List.mem_cons_of_mem a (ih (n0 + 1) p hp2)

/-- C4 (amended): in one mode, whenever a dbtype-specific required file is
missing on disk, the metainfo record is marked failed and is still included
(the run does not abort on it); in rac mode the validation status of every
merged record of a successfully parsed cluster is passed regardless of the
files on disk, because `merge_node_files` consults only `is_valid` — node
identity and manifest presence — and the cluster was built from valid nodes
only. -/
theorem c4_required_file_miss_soft_fails_one_mode_only :
    (∀ (today dbtype : String) (fs : List String) (directory : String)
        (load : ManifestLoad) (rf : String),
        (parse_file_status today "one" none directory load).isSome = true →
        rf ∈ required_files dbtype →
        fs.contains (joinPath directory rf) = false →
        (processOneDir today dbtype fs directory load).map (·.validation_status) =
            some (some "failed") ∧
          (processOneDir today dbtype fs directory load).isSome = true) ∧
    (∀ dirs : List RacDirInput,
        ((rac_mode_metainfo dirs).toOption.getD []).all
          (fun r => r.validation_status == "passed") = true) := by
  constructor
  · intro today dbtype fs directory load rf hsome hrf hmiss
    cases hit : parse_file_status today "one" none directory load with
    | none => rw [hit] at hsome; cases hsome
    | some item =>
      have hreq : ((required_files dbtype).all fun rf0 =>
          fs.contains (joinPath directory rf0)) = false := by
        cases hall : (required_files dbtype).all fun rf0 =>
            fs.contains (joinPath directory rf0) with
        | false => rfl
        | true =>
          have := List.all_eq_true.mp hall rf hrf
          rw [hmiss] at this
          cases this
      have hval : validate_directory fs dbtype directory item = false := by
        rw [validate_directory, hreq, Bool.false_and]
      rw [processOneDir, hit]
      constructor
      · simp [hval, withStatus]
      · rfl
  · intro dirs
    cases hp : parse_rac_directories dirs with
    | error e => simp [rac_mode_metainfo, hp, Except.map, Except.toOption]
    | ok c =>
      simp only [rac_mode_metainfo, hp, Except.map, Except.toOption, Option.getD_some]
      apply List.all_eq_true.mpr
      intro r hr
      rw [merge_node_files] at hr
      obtain ⟨p, hp2, rfl⟩ := List.mem_map.mp hr
      have hmem : p.2 ∈ c.nodes := snd_mem_of_mem_enumFrom c.nodes 0 p hp2
      rw [parse_rac_nodes dirs c hp] at hmem
      have hv := mem_resolved_valid dirs p.2 hmem
      simp [mergeNodeRecord_status _ _ hv]

/-- C4 witness: a concrete one-mode directory missing the hardware-info
required file yields an included record with failed status, and a concrete
rac run on intact manifests but empty disk directories yields only passed
records. -/
theorem c4_required_file_miss_witness :
    ((processOneDir "20250101" "oracle" ["h_orcl_20250826/file_status.json"]
        "h_orcl_20250826"
        (.loaded ⟨some "h", some "orcl", none, some "20250826", none, none,
          none, some (.obj []), false⟩)).map (·.validation_status) =
      some (some "failed")) ∧
    ((rac_mode_metainfo
        [⟨"h1_orcl1_20250826", true,
            .loaded ⟨none, some "orcl1", none, none, none, none, none, none, false⟩, []⟩,
         ⟨"h2_orcl2_20250826", true,
            .loaded ⟨none, some "orcl2", none, none, none, none, none, none, false⟩, []⟩]).toOption.getD
        []).all (fun r => r.validation_status == "passed") = true :=
  ⟨(c4_required_file_miss_soft_fails_one_mode_only.1 "20250101" "oracle"
      ["h_orcl_20250826/file_status.json"] "h_orcl_20250826"
      (.loaded ⟨some "h", some "orcl", none, some "20250826", none, none,
        none, some (.obj []), false⟩) "02_hardware_info.json"
      (by decide) (by decide) (by decide)).1,
   c4_required_file_miss_soft_fails_one_mode_only.2 _⟩

/-- C4 counterexample: a rac ingestion whose two node directories are
missing the required system-info and hardware-info files on disk still
persists both records with validation status passed, not failed — the
required-file check is simply never run on the rac path. -/
theorem c4_rac_required_file_miss_not_failed :
    ("01_system_info.txt" ∈ required_files "oracle") ∧
    ((rac_mode_metainfo
        [⟨"h1_orcl1_20250826", true,
            .loaded ⟨none, some "orcl1", none, none, none, none, none, none, false⟩,
            ["file_status.json"]⟩,
         ⟨"h2_orcl2_20250826", true,
            .loaded ⟨none, some "orcl2", none, none, none, none, none, none, false⟩,
            ["file_status.json"]⟩]).toOption.map
        (fun l => l.map (·.validation_status)) = some ["passed", "passed"]) := by
  constructor
  · decide
  · decide

/-- C5 (amended): the metainfo of a rac run has one record per directory
that resolved to a valid node, numbered 1..k in input order — which is
1..n exactly when all n supplied directories resolve. -/
theorem c5_rac_metainfo_counts_resolved_nodes :
    (∀ dirs : List RacDirInput,
        (rac_mode_metainfo dirs).toOption.map (fun l => l.map (·.node_number)) =
          if (dirs.filterMap resolveNode).isEmpty then none
          else some (List.range' 1 (dirs.filterMap resolveNode).length)) ∧
    (∀ dirs : List RacDirInput, 2 ≤ dirs.length →
        (∀ d ∈ dirs, (resolveNode d).isSome = true) →
        (rac_mode_metainfo dirs).toOption.map (fun l => l.map (·.node_number)) =
          some (List.range' 1 dirs.length)) := by
  have main : ∀ dirs : List RacDirInput,
      (rac_mode_metainfo dirs).toOption.map (fun l => l.map (·.node_number)) =
        if (dirs.filterMap resolveNode).isEmpty then none
        else some (List.range' 1 (dirs.filterMap resolveNode).length) := by
    intro dirs
    cases hp : parse_rac_directories dirs with
    | error e =>
      have hfail : (parse_rac_directories dirs).toOption = none := by
        rw [hp]; rfl
      have hempty := (parse_rac_fails_iff dirs).mp hfail
      simp [rac_mode_metainfo, hp, Except.map, Except.toOption, hempty]
    | ok c =>
      have hne : ¬ dirs.filterMap resolveNode = [] := by
        intro h0
        have := (parse_rac_fails_iff dirs).mpr h0
        rw [hp] at this
        cases this
      have hie : (dirs.filterMap resolveNode).isEmpty = false := by
        cases hl : dirs.filterMap resolveNode with
        | nil => exact absurd hl hne
        | cons a t => rfl
      have hmerge : (merge_node_files c).map (·.node_number) =
          List.range' 1 c.nodes.length := by
        rw [merge_node_files, List.map_map]
        show (List.enumFrom 0 c.nodes).map
          (fun p => (mergeNodeRecord (p.1 + 1) p.2).node_number) = _
        rw [enumFrom_merge_node_numbers c.nodes 0]
      rw [parse_rac_nodes dirs c hp] at hmerge
      have hopt : (rac_mode_metainfo dirs).toOption = some (merge_node_files c) := by
        rw [rac_mode_metainfo, hp]; rfl
      rw [hopt]
      simp only [hie, Bool.false_eq_true, if_false, Option.map_some]
      exact congrArg some hmerge
  constructor
  · exact main
  · intro dirs h2 hall
    have hlenAll : ∀ l : List RacDirInput, (∀ d ∈ l, (resolveNode d).isSome = true) →
        (l.filterMap resolveNode).length = l.length := by
      intro l hl
      induction l with
      | nil => rfl
      | cons d t ih =>
        have hd := hl d (List.mem_cons_self d t)
        cases hr : resolveNode d with
        | none => rw [hr] at hd; cases hd
        | some n =>
          simp only [List.filterMap_cons, hr, List.length_cons]
          rw [ih (fun x hx => hl x (List.mem_cons_of_mem d hx))]
    have hlen := hlenAll dirs hall
    have hne : (dirs.filterMap resolveNode).isEmpty = false := by
      cases hl : dirs.filterMap resolveNode with
      | nil =>
        rw [hl] at hlen
        rw [← hlen] at h2
        simp at h2
      | cons a t => rfl
    rw [main dirs, hne]
    simp [hlen]

/-- C5 witness: two valid directories yield node numbers 1 and 2. -/
theorem c5_rac_metainfo_witness :
    (rac_mode_metainfo
        [⟨"h1_orcl1_20250826", true,
            .loaded ⟨none, some "orcl1", none, none, none, none, none, none, false⟩, []⟩,
         ⟨"h2_orcl2_20250826", true,
            .loaded ⟨none, some "orcl2", none, none, none, none, none, none, false⟩, []⟩]).toOption.map
      (fun l => l.map (·.node_number)) = some (List.range' 1 2) :=
  c5_rac_metainfo_counts_resolved_nodes.2 _ (by decide) (by decide)

/-- C5 counterexample: a rac ingestion of three directories, one of which
has no manifest, persists a document whose metainfo has two records, not
three — invalid nodes are dropped rather than failing the run. -/
theorem c5_rac_metainfo_drops_invalid_node :
    ((rac_mode_metainfo
        [⟨"h1_orcl1_20250826", true,
            .loaded ⟨none, some "orcl1", none, none, none, none, none, none, false⟩, []⟩,
         ⟨"h2_orcl2_20250826", true, .missing, []⟩,
         ⟨"h3_orcl3_20250826", true,
            .loaded ⟨none, some "orcl3", none, none, none, none, none, none, false⟩, []⟩]).toOption.map
        (fun l => l.map (·.node_number)) = some [1, 2]) ∧
    ([⟨"h1_orcl1_20250826", true,
         .loaded ⟨none, some "orcl1", none, none, none, none, none, none, false⟩, []⟩,
      ⟨"h2_orcl2_20250826", true, .missing, []⟩,
      ⟨"h3_orcl3_20250826", true,
         .loaded ⟨none, some "orcl3", none, none, none, none, none, none, false⟩,
         []⟩] : List RacDirInput).length = 3 := by
  constructor
  · decide
  · decide

/-! ## Theorems for C7: dbname derivation from sid -/

/-- Helper: the head of a `dropWhile` residue fails the predicate. -/
theorem dropWhile_head_not (p : Char → Bool) : ∀ (l : List Char) (c : Char),
    (l.dropWhile p).head? = some c → p c = false := by
  intro l
  induction l with
  | nil => intro c h; cases h
  | cons a t ih =>
    intro c h
    by_cases hp : p a = true
    · rw [List.dropWhile_cons_of_pos hp] at h
      exact ih c h
    · have hp2 : p a = false := by
        cases hpa : p a with
        | false => rfl
        | true => exact absurd hpa hp
      rw [List.dropWhile_cons_of_neg (by rw [hp2]; simp)] at h
      cases h
      exact hp2

/-- C7: for every cluster-mode node whose final sid is truthy (in particular
for every valid node), dbname is the final sid with the maximal trailing run
of decimal digits removed — the derivation is re-applied after the
manifest's oracle_sid/sid override; and `stripTrailingDigits` indeed removes
exactly the maximal all-digit suffix, leaving a string not ending in a
digit. -/
theorem c7_dbname_strips_trailing_digits_of_final_sid :
    (∀ (directory : String) (load : ManifestLoad),
        pyTruthy (mkRacNodeInfo directory load).sid = true →
        (mkRacNodeInfo directory load).dbname =
          some (stripTrailingDigitsS ((mkRacNodeInfo directory load).sid.getD ""))) ∧
    (∀ s : String,
        s.data = (stripTrailingDigitsS s).data ++
            (s.data.reverse.takeWhile Char.isDigit).reverse ∧
        (∀ c ∈ s.data.reverse.takeWhile Char.isDigit, c.isDigit = true) ∧
        (∀ c, (stripTrailingDigitsS s).data.getLast? = some c →
            c.isDigit = false)) := by
  constructor
  · intro directory load h
    cases load with
    | missing =>
      simp only [mkRacNodeInfo] at h ⊢
      by_cases hp : 3 ≤ (splitOnChar '_'
          (String.mk (basenameChars directory.data)).data).length
      · simp [hp]
      · simp only [hp, if_false] at h
        simp [pyTruthy] at h
    | unreadable =>
      simp only [mkRacNodeInfo] at h ⊢
      by_cases hp : 3 ≤ (splitOnChar '_'
          (String.mk (basenameChars directory.data)).data).length
      · simp [hp]
      · simp only [hp, if_false] at h
        simp [pyTruthy] at h
    | loaded m =>
      simp only [mkRacNodeInfo] at h ⊢
      cases ho : m.oracle_sid with
      | some s =>
        simp only [ho] at h ⊢
        have ht : pyTruthy (some s) = true := h
        simp [ht]
      | none =>
        simp only [ho] at h ⊢
        cases hs : m.sid with
        | some s =>
          simp only [hs] at h ⊢
          have ht : pyTruthy (some s) = true := h
          simp [ht]
        | none =>
          simp only [hs] at h ⊢
          by_cases hp : 3 ≤ (splitOnChar '_'
              (String.mk (basenameChars directory.data)).data).length
          · simp only [hp, if_true] at h ⊢
            simp [h]
          · simp only [hp, if_false] at h
            simp [pyTruthy] at h
  · intro s
    refine ⟨?_, ?_, ?_⟩
    · have h1 := List.takeWhile_append_dropWhile Char.isDigit s.data.reverse
      have h2 : (stripTrailingDigitsS s).data =
          (s.data.reverse.dropWhile Char.isDigit).reverse := rfl
      rw [h2]
      conv_lhs => rw [← List.reverse_reverse s.data, ← h1]
      rw [List.reverse_append]
    · intro c hc
      exact List.mem_takeWhile_imp hc
    · intro c hc
      have h2 : (stripTrailingDigitsS s).data =
          (s.data.reverse.dropWhile Char.isDigit).reverse := rfl
      rw [h2, List.getLast?_reverse] at hc
      exact dropWhile_head_not Char.isDigit _ c hc

/-- C7 witness: the node built from directory oms-db1_hnoms1_20250826 with
no manifest carries sid hnoms1 and dbname hnoms. -/
theorem c7_dbname_witness :
    (mkRacNodeInfo "oms-db1_hnoms1_20250826" .missing).dbname = some "hnoms" :=
  (c7_dbname_strips_trailing_digits_of_final_sid.1 "oms-db1_hnoms1_20250826"
      .missing (by decide)).trans (by decide)

/-! ## Theorems for C9: cluster-level collect_date -/

/-- Helper: equal code points give equal characters. -/
theorem char_eq_of_toNat_eq (a b : Char) (h : a.toNat = b.toNat) : a = b :=
  Char.ext (UInt32.toNat.inj h)

/-- Helper: irreflexivity of the string order. -/
theorem strLtB_irrefl : ∀ l : List Char, strLtB l l = false := by
  intro l
  induction l with
  | nil => rfl
  | cons a as ih =>
    rw [strLtB]
    simp [Nat.lt_irrefl, ih]

/-- Helper: transitivity of the string order. -/
theorem strLtB_trans : ∀ a b c : List Char,
    strLtB a b = true → strLtB b c = true → strLtB a c = true := by
  intro a
  induction a with
  | nil =>
    intro b c h1 h2
    cases b with
    | nil => cases h1
    | cons x xs =>
      cases c with
      | nil => cases h2
      | cons y ys => rfl
  | cons a as ih =>
    intro b c h1 h2
    cases b with
    | nil => cases h1
    | cons x xs =>
      cases c with
      | nil => cases h2
      | cons y ys =>
        rw [strLtB] at h1 h2 ⊢
        by_cases hax : a.toNat < x.toNat
        · by_cases hxy : x.toNat < y.toNat
          · rw [if_pos (Nat.lt_trans hax hxy)]
          · rw [if_pos hax] at h1
            rw [if_neg hxy] at h2
            by_cases hyx : y.toNat < x.toNat
            · rw [if_pos hyx] at h2; cases h2
            · have hxye : x.toNat = y.toNat := Nat.le_antisymm
                (Nat.le_of_not_lt hyx) (Nat.le_of_not_lt hxy)
              rw [if_pos (hxye ▸ hax)]
        · by_cases hxa : x.toNat < a.toNat
          · rw [if_neg hax, if_pos hxa] at h1; cases h1
          · have haxe : a.toNat = x.toNat := Nat.le_antisymm
              (Nat.le_of_not_lt hxa) (Nat.le_of_not_lt hax)
            rw [if_neg hax, if_neg hxa] at h1
            by_cases hxy : x.toNat < y.toNat
            · rw [if_pos (haxe ▸ hxy)]
            · by_cases hyx : y.toNat < x.toNat
              · rw [if_neg hxy, if_pos hyx] at h2; cases h2
              · have hxye : x.toNat = y.toNat := Nat.le_antisymm
                  (Nat.le_of_not_lt hyx) (Nat.le_of_not_lt hxy)
                rw [if_neg hxy, if_neg hyx] at h2
                have hay : ¬ a.toNat < y.toNat := by omega
                have hya : ¬ y.toNat < a.toNat := by omega
                rw [if_neg hay, if_neg hya]
                exact ih xs ys h1 h2

/-- Helper: two strings neither of which precedes the other are equal. -/
theorem strLtB_connex : ∀ a b : List Char,
    strLtB a b = false → strLtB b a = false → a = b := by
  intro a
  induction a with
  | nil =>
    intro b h1 _
    cases b with
    | nil => rfl
    | cons x xs => cases h1
  | cons a as ih =>
    intro b h1 h2
    cases b with
    | nil => cases h2
    | cons x xs =>
      rw [strLtB] at h1 h2
      by_cases hax : a.toNat < x.toNat
      · rw [if_pos hax] at h1; cases h1
      · by_cases hxa : x.toNat < a.toNat
        · rw [if_pos hxa] at h2
          cases h2
        · rw [if_neg hax, if_neg hxa] at h1
          rw [if_neg hxa, if_neg hax] at h2
          have hc : a = x := char_eq_of_toNat_eq a x
            (Nat.le_antisymm (Nat.le_of_not_lt hxa) (Nat.le_of_not_lt hax))
          rw [hc, ih xs h1 h2]

/-- Helper: specification of the running-maximum fold behind `pyMaxString`:
the result is one of the candidates and is an upper bound of all of them. -/
theorem foldl_max_spec : ∀ (t : List String) (acc : String),
    (t.foldl (fun a x => if strLtB a.data x.data then x else a) acc) ∈ acc :: t ∧
    strLeB acc.data
      ((t.foldl (fun a x => if strLtB a.data x.data then x else a) acc)).data = true ∧
    ∀ x ∈ t, strLeB x.data
      ((t.foldl (fun a x => if strLtB a.data x.data then x else a) acc)).data = true := by
  intro t
  induction t with
  | nil =>
    intro acc
    refine ⟨List.mem_cons_self _ _, ?_, ?_⟩
    · simp [strLeB, List.foldl, strLtB_irrefl]
    · intro x hx; cases hx
  | cons x xs ih =>
    intro acc
    have step : (x :: xs).foldl (fun a y => if strLtB a.data y.data then y else a) acc =
        xs.foldl (fun a y => if strLtB a.data y.data then y else a)
          (if strLtB acc.data x.data then x else acc) := rfl
    obtain ⟨ihmem, ihacc, ihall⟩ := ih (if strLtB acc.data x.data then x else acc)
    rw [step]
    set r := xs.foldl (fun a y => if strLtB a.data y.data then y else a)
      (if strLtB acc.data x.data then x else acc) with hr
    refine ⟨?_, ?_, ?_⟩
    · rcases List.mem_cons.mp ihmem with h | h
      · by_cases hax : strLtB acc.data x.data = true
        · rw [if_pos hax] at h
          rw [h]
          exact List.mem_cons_of_mem _ (List.mem_cons_self _ _)
        · rw [if_neg hax] at h
          rw [h]
          exact List.mem_cons_self _ _
      · exact List.mem_cons_of_mem _ (List.mem_cons_of_mem _ h)
    · by_cases hax : strLtB acc.data x.data = true
      · rw [if_pos hax] at ihacc
        rw [strLeB] at ihacc ⊢
        cases hra : strLtB r.data acc.data with
        | false => rfl
        | true =>
          have := strLtB_trans _ _ _ hra hax
          rw [this] at ihacc
          cases ihacc
      · rw [if_neg hax] at ihacc
        exact ihacc
    · intro y hy
      rcases List.mem_cons.mp hy with h | h
      · subst h
        by_cases hax : strLtB acc.data y.data = true
        · rw [if_pos hax] at ihacc
          exact ihacc
        · rw [if_neg hax] at ihacc
          rw [strLeB] at ihacc ⊢
          cases hry : strLtB r.data y.data with
          | false => rfl
          | true =>
            by_cases hya : strLtB y.data acc.data = true
            · have := strLtB_trans _ _ _ hry hya
              rw [this] at ihacc
              cases ihacc
            · have heq : y.data = acc.data := strLtB_connex _ _
                (Bool.not_eq_true _ ▸ hya)
                (Bool.not_eq_true _ ▸ hax)
              rw [heq] at hry
              rw [hry] at ihacc
              cases ihacc
      · exact ihall y h

/-- Helper: specification of `pyMaxString` on a non-empty list. -/
theorem pyMaxString_spec (l : List String) (h : l ≠ []) :
    ∃ mx, pyMaxString l = some mx ∧ mx ∈ l ∧
      ∀ x ∈ l, strLeB x.data mx.data = true := by
  cases l with
  | nil => exact absurd rfl h
  | cons a t =>
    obtain ⟨hmem, hacc, hall⟩ := foldl_max_spec t a
    refine ⟨_, rfl, hmem, ?_⟩
    intro x hx
    rcases List.mem_cons.mp hx with h1 | h1
    · rw [h1]; exact hacc
    · exact hall x h1

/-- Helper: the collect_date of a successfully built cluster, as an
expression over the distinct truthy node dates. -/
theorem mkRacClusterInfo_collect_date (nodes : List RacNodeInfo)
    (c : RacClusterInfo) (h : mkRacClusterInfo nodes = .ok c) :
    c.collect_date =
      (match dedupKeepFirst (nodeDates nodes) with
       | [d] => some d
       | _ => pyMaxString (dedupKeepFirst (nodeDates nodes))) := by
  rw [mkRacClusterInfo] at h
  by_cases he : nodes.isEmpty = true
  · rw [if_pos he] at h; cases h
  · rw [if_neg he] at h
    cases hh : nodes.head?.bind (·.hostname) with
    | none => rw [hh] at h; cases h
    | some s => rw [hh] at h; cases h; rfl

/-- C9: the cluster-level collect_date is the unique common truthy date when
the nodes agree, None when no node carries a truthy date, and otherwise the
maximum of the distinct truthy dates under Python string comparison (for
8-digit YYYYMMDD strings, the latest date). -/
theorem c9_cluster_collect_date_is_latest (nodes : List RacNodeInfo)
    (c : RacClusterInfo) (h : mkRacClusterInfo nodes = .ok c) :
    (dedupKeepFirst (nodeDates nodes) = [] → c.collect_date = none) ∧
    (∀ d, dedupKeepFirst (nodeDates nodes) = [d] → c.collect_date = some d) ∧
    (2 ≤ (dedupKeepFirst (nodeDates nodes)).length →
      ∃ mx, c.collect_date = some mx ∧ mx ∈ dedupKeepFirst (nodeDates nodes) ∧
        ∀ d ∈ dedupKeepFirst (nodeDates nodes), strLeB d.data mx.data = true) := by
  have hc := mkRacClusterInfo_collect_date nodes c h
  refine ⟨?_, ?_, ?_⟩
  · intro hd
    rw [hd] at hc
    exact hc
  · intro d hd
    rw [hd] at hc
    exact hc
  · intro hlen
    cases hd : dedupKeepFirst (nodeDates nodes) with
    | nil => rw [hd] at hlen; cases hlen
    | cons d1 rest =>
      cases rest with
      | nil => rw [hd] at hlen; simp at hlen
      | cons d2 rest2 =>
        rw [hd] at hc
        have hc2 : c.collect_date = pyMaxString (d1 :: d2 :: rest2) := hc
        obtain ⟨mx, hmx, hmem, hall⟩ :=
          pyMaxString_spec (d1 :: d2 :: rest2) (by simp)
        rw [hmx] at hc2
        exact ⟨mx, hc2, hmem, hall⟩

/-- C9 witness: two nodes with dates 20250826 and 20250827 yield the cluster
date 20250827, through the maximum branch of the theorem. -/
theorem c9_cluster_collect_date_witness :
    (mkRacClusterInfo
      [mkRacNodeInfo "h1_orcl1_20250826" .missing,
       mkRacNodeInfo "h2_orcl2_20250827" .missing]).toOption.map (·.collect_date) =
      some (some "20250827") := by
  cases hc : mkRacClusterInfo
      [mkRacNodeInfo "h1_orcl1_20250826" .missing,
       mkRacNodeInfo "h2_orcl2_20250827" .missing] with
  | error e =>
    have hno : (mkRacClusterInfo
        [mkRacNodeInfo "h1_orcl1_20250826" .missing,
         mkRacNodeInfo "h2_orcl2_20250827" .missing]).toOption = none := by
      rw [hc]; rfl
    exact absurd hno (by decide)
  | ok c =>
    obtain ⟨mx, hmx, hmem, hall⟩ :=
      (c9_cluster_collect_date_is_latest _ c hc).2.2 (by decide)
    have hdates : dedupKeepFirst (nodeDates
        [mkRacNodeInfo "h1_orcl1_20250826" .missing,
         mkRacNodeInfo "h2_orcl2_20250827" .missing]) =
        ["20250826", "20250827"] := by decide
    rw [hdates] at hmem hall
    have hmx2 : mx = "20250827" := by
      rcases List.mem_cons.mp hmem with h1 | h1
      · have h2 := hall "20250827" (by simp)
        rw [h1] at h2
        exact absurd h2 (by decide)
      · simpa using h1
    subst hmx2
    simp only [Except.toOption]
    exact Option.map_eq_some'.mpr ⟨c, rfl, hmx⟩

/-! ## Theorems for C10: files-array normalization, merge vs single-node -/

/-- Helper: lookup after a Python-dict insertion. -/
theorem dictInsert_lookup {α : Type} (l : List (String × α)) (k : String)
    (v : α) (q : String) :
    (dictInsert l k v).lookup q = if q = k then some v else l.lookup q := by
  induction l with
  | nil =>
    rw [dictInsert]
    by_cases hq : q = k
    · simp [List.lookup, hq]
    · simp [List.lookup, hq, beq_eq_false_iff_ne.mpr hq]
  | cons p t ih =>
    rw [dictInsert]
    by_cases hp : p.1 = k
    · rw [if_pos hp]
      by_cases hq : q = k
      · simp [List.lookup, hq, hp]
      · have hqp : (q == p.1) = false := by
          rw [hp]
          exact beq_eq_false_iff_ne.mpr hq
        simp [List.lookup, hq, hqp]
    · rw [if_neg hp]
      by_cases hq : q = p.1
      · have hqk : ¬ q = k := by rw [hq]; exact hp
        simp [List.lookup, hq, hqk, hp]
      · have hqp : (q == p.1) = false := beq_eq_false_iff_ne.mpr hq
        cases hpp : p with
        | mk a b =>
          rw [hpp] at hqp
          simp only [List.lookup, hqp, ih]

/-- Helper: presence of a key after the merge-branch fold, for any starting
accumulator. -/
theorem mergeFilesArr_lookup_aux (dir : String) :
    ∀ (entries : List RawFileEntry) (acc : List (String × MergedFileVal))
      (k : String),
    ((entries.foldl
        (fun acc e =>
          match e.filename, e.status with
          | some fn, some st =>
            dictInsert acc (String.mk (splitDotHead fn.data))
              (.fromArr fn st (e.description.getD "") (e.fexists.getD false)
                (e.size.getD 0) (joinPath dir fn))
          | _, _ => acc)
        acc).lookup k).isSome =
      ((acc.lookup k).isSome ||
        entries.any fun e => e.filename.isSome && e.status.isSome &&
          (String.mk (splitDotHead (e.filename.getD "").data) == k)) := by
  intro entries
  induction entries with
  | nil => intro acc k; simp
  | cons e rest ih =>
    intro acc k
    cases hf : e.filename with
    | none =>
      simp only [List.foldl_cons, List.any_cons, hf, Option.isSome_none,
        Bool.false_and, Bool.false_or]
      rw [ih acc k]
    | some fn =>
      cases hs : e.status with
      | none =>
        simp only [List.foldl_cons, List.any_cons, hf, hs, Option.isSome_none,
          Bool.and_false, Bool.false_and, Bool.false_or]
        rw [ih acc k]
      | some st =>
        simp only [List.foldl_cons, List.any_cons, hf, hs, Option.isSome_some,
          Bool.true_and, Option.getD_some]
        rw [ih _ k, dictInsert_lookup]
        by_cases hk : k = String.mk (splitDotHead fn.data)
        · rw [if_pos hk]
          have hbeq : (String.mk (splitDotHead fn.data) == k) = true :=
            beq_iff_eq.mpr hk.symm
          rw [hbeq]
          simp
        · rw [if_neg hk]
          have hbeq : (String.mk (splitDotHead fn.data) == k) = false :=
            beq_eq_false_iff_ne.mpr (fun h => hk h.symm)
          rw [hbeq]
          simp

/-- Helper: presence of a key after the single-node array fold, for any
starting accumulator. -/
theorem oneFilesFromArr_lookup_aux (dir : String) :
    ∀ (entries : List RawFileEntry) (acc : List (String × OneMetaFile))
      (k : String),
    ((entries.foldl
        (fun acc e =>
          let filename := e.filename.getD ""
          if filename.data.isEmpty then acc
          else
            dictInsert acc (String.mk (pathStem filename.data))
              ⟨joinPath dir filename, e.fexists.getD false, e.size.getD 0,
                e.modified⟩)
        acc).lookup k).isSome =
      ((acc.lookup k).isSome ||
        entries.any fun e => !(e.filename.getD "").data.isEmpty &&
          (String.mk (pathStem (e.filename.getD "").data) == k)) := by
  intro entries
  induction entries with
  | nil => intro acc k; simp
  | cons e rest ih =>
    intro acc k
    cases hfe : (e.filename.getD "").data.isEmpty with
    | true =>
      simp only [List.foldl_cons, List.any_cons, hfe, if_true, Bool.not_true,
        Bool.false_and, Bool.false_or]
      rw [ih acc k]
    | false =>
      simp only [List.foldl_cons, List.any_cons, hfe, Bool.false_eq_true,
        if_false, Bool.not_false, Bool.true_and]
      rw [ih _ k, dictInsert_lookup]
      by_cases hk : k = String.mk (pathStem (e.filename.getD "").data)
      · rw [if_pos hk]
        have hbeq : (String.mk (pathStem (e.filename.getD "").data) == k) = true :=
          beq_iff_eq.mpr hk.symm
        rw [hbeq]
        simp
      · rw [if_neg hk]
        have hbeq : (String.mk (pathStem (e.filename.getD "").data) == k) = false :=
          beq_eq_false_iff_ne.mpr (fun h => hk h.symm)
        rw [hbeq]
        simp

/-- C10: in cluster-mode merging of an array-form files field, a key is
present in the node's files map exactly when some entry carries BOTH a
filename key and a status key whose filename's dot-prefix is that key — an
entry lacking status is silently omitted — whereas the single-node
normalization of the same array keys every entry with a non-empty filename
(no status required), under the filename's stem. -/
theorem c10_merge_requires_status_single_node_does_not
    (dir : String) (entries : List RawFileEntry) (k : String) :
    (((mergeFilesArr dir entries).lookup k).isSome =
       entries.any fun e => e.filename.isSome && e.status.isSome &&
         (String.mk (splitDotHead (e.filename.getD "").data) == k)) ∧
    (((oneFilesFromArr dir entries).lookup k).isSome =
       entries.any fun e => !(e.filename.getD "").data.isEmpty &&
         (String.mk (pathStem (e.filename.getD "").data) == k)) := by
  constructor
  · have h := mergeFilesArr_lookup_aux dir entries [] k
    simpa [mergeFilesArr] using h
  · have h := oneFilesFromArr_lookup_aux dir entries [] k
    simpa [oneFilesFromArr] using h

/-- C10 witness: a concrete array entry with a filename but no status is
dropped by the merge branch yet kept (under the stem key) by the single-node
branch. -/
theorem c10_merge_requires_status_witness :
    ((mergeFilesArr "d"
        [⟨some "a.txt", none, none, some true, some 10, none⟩]).lookup "a").isSome =
      false ∧
    ((oneFilesFromArr "d"
        [⟨some "a.txt", none, none, some true, some 10, none⟩]).lookup "a").isSome =
      true := by
  constructor
  · rw [(c10_merge_requires_status_single_node_does_not "d"
      [⟨some "a.txt", none, none, some true, some 10, none⟩] "a").1]
    decide
  · rw [(c10_merge_requires_status_single_node_does_not "d"
      [⟨some "a.txt", none, none, some true, some 10, none⟩] "a").2]
    decide

/-! ## Theorems for C8: auto-discovery -/

/-- Helper: asymmetry of the string order. -/
theorem strLtB_asymm (a b : List Char) (h : strLtB a b = true) :
    strLtB b a = false := by
  cases hba : strLtB b a with
  | false => rfl
  | true =>
    have := strLtB_trans a b a h hba
    rw [strLtB_irrefl] at this
    cases this

/-- Helper: totality of the non-strict string order. -/
theorem strLeB_total (a b : List Char) (h : strLeB a b = false) :
    strLeB b a = true := by
  rw [strLeB] at h ⊢
  cases hba : strLtB b a with
  | false => rw [hba] at h; cases h
  | true => rw [strLtB_asymm b a hba]; rfl

/-- Helper: transitivity of the non-strict string order. -/
theorem strLeB_trans (a b c : List Char) (h1 : strLeB a b = true)
    (h2 : strLeB b c = true) : strLeB a c = true := by
  rw [strLeB] at h1 h2 ⊢
  cases hca : strLtB c a with
  | false => rfl
  | true =>
    cases hba : strLtB b a with
    | true => rw [hba] at h1; cases h1
    | false =>
      cases hcb : strLtB c b with
      | true => rw [hcb] at h2; cases h2
      | false =>
        cases hab : strLtB a b with
        | true =>
          have := strLtB_trans c a b hca hab
          rw [this] at hcb
          cases hcb
        | false =>
          have heq : a = b := strLtB_connex a b hab hba
          rw [heq] at hca
          rw [hca] at hcb
          cases hcb

/-- Helper: every path inside the groups after a `groupInsert` is the
inserted path or was already in some group. -/
theorem groupInsert_src : ∀ (gs : List (String × List String)) (k v q : String),
    (∃ g ∈ groupInsert gs k v, q ∈ g.2) →
    q = v ∨ ∃ g0 ∈ gs, q ∈ g0.2 := by
  intro gs
  induction gs with
  | nil =>
    intro k v q ⟨g, hg, hq⟩
    rw [groupInsert] at hg
    rcases List.mem_cons.mp hg with h | h
    · rw [h] at hq
      rcases List.mem_cons.mp hq with h2 | h2
      · exact Or.inl h2
      · cases h2
    · cases h
  | cons a t ih =>
    intro k v q ⟨g, hg, hq⟩
    rw [groupInsert] at hg
    by_cases hk : a.1 = k
    · rw [if_pos hk] at hg
      rcases List.mem_cons.mp hg with h | h
      · rw [h] at hq
        rcases List.mem_append.mp hq with h2 | h2
        · exact Or.inr ⟨a, List.mem_cons_self a t, h2⟩
        · rcases List.mem_cons.mp h2 with h3 | h3
          · exact Or.inl h3
          · cases h3
      · exact Or.inr ⟨g, List.mem_cons_of_mem a h, hq⟩
    · rw [if_neg hk] at hg
      rcases List.mem_cons.mp hg with h | h
      · rw [h] at hq
        exact Or.inr ⟨a, List.mem_cons_self a t, hq⟩
      · rcases ih k v q ⟨g, h, hq⟩ with h2 | ⟨g0, hg0, hq0⟩
        · exact Or.inl h2
        · exact Or.inr ⟨g0, List.mem_cons_of_mem a hg0, hq0⟩

/-- Helper: every path inside the groups built by `buildRacGroups` over any
accumulator either was in the accumulator or is a matching input path. -/
theorem buildRacGroups_src : ∀ (paths : List String)
    (acc : List (String × List String)) (q : String),
    (∃ g ∈ paths.foldl
        (fun gs p =>
          match racNameMatch (basenameChars p.data) with
          | some g => groupInsert gs (racGroupKey g.1 g.2.1 g.2.2) p
          | none => gs)
        acc, q ∈ g.2) →
    (∃ g ∈ acc, q ∈ g.2) ∨
      (q ∈ paths ∧ (racNameMatch (basenameChars q.data)).isSome = true) := by
  intro paths
  induction paths with
  | nil => intro acc q h; exact Or.inl h
  | cons p rest ih =>
    intro acc q h
    rw [List.foldl_cons] at h
    cases hm : racNameMatch (basenameChars p.data) with
    | none =>
      rw [hm] at h
      rcases ih acc q h with h2 | ⟨h2, h3⟩
      · exact Or.inl h2
      · exact Or.inr ⟨List.mem_cons_of_mem p h2, h3⟩
    | some g0 =>
      rw [hm] at h
      rcases ih _ q h with h2 | ⟨h2, h3⟩
      · rcases groupInsert_src acc _ p q h2 with h4 | h4
        · refine Or.inr ⟨?_, ?_⟩
          · rw [h4]; exact List.mem_cons_self p rest
          · rw [h4, hm]; rfl
        · exact Or.inl h4
      · exact Or.inr ⟨List.mem_cons_of_mem p h2, h3⟩

/-- Helper: the first largest group is one of the groups and bounds every
group's size. -/
theorem largestGroup_spec : ∀ (gt : List (String × List String))
    (g : String × List String),
    largestGroup g gt ∈ g :: gt ∧
    ∀ x ∈ g :: gt, x.2.length ≤ (largestGroup g gt).2.length := by
  intro gt
  induction gt with
  | nil =>
    intro g
    refine ⟨List.mem_cons_self _ _, ?_⟩
    intro x hx
    rcases List.mem_cons.mp hx with h | h
    · rw [h]
      exact Nat.le_refl _
    · cases h
  | cons a t ih =>
    intro g
    by_cases hga : g.2.length < a.2.length
    · have hstep : largestGroup g (a :: t) = largestGroup a t := by
        simp only [largestGroup, List.foldl_cons]
        rw [if_pos hga]
      obtain ⟨ihmem, ihbound⟩ := ih a
      rw [hstep]
      constructor
      · rcases List.mem_cons.mp ihmem with h | h
        · rw [h]
          exact List.mem_cons_of_mem _ (List.mem_cons_self _ _)
        · exact List.mem_cons_of_mem _ (List.mem_cons_of_mem _ h)
      · intro x hx
        rcases List.mem_cons.mp hx with h | h
        · subst h
          exact Nat.le_trans (Nat.le_of_lt hga)
            (ihbound a (List.mem_cons_self _ _))
        · rcases List.mem_cons.mp h with h2 | h2
          · subst h2
            exact ihbound x (List.mem_cons_self _ _)
          · exact ihbound x (List.mem_cons_of_mem _ h2)
    · have hstep : largestGroup g (a :: t) = largestGroup g t := by
        simp only [largestGroup, List.foldl_cons]
        rw [if_neg hga]
      obtain ⟨ihmem, ihbound⟩ := ih g
      rw [hstep]
      constructor
      · rcases List.mem_cons.mp ihmem with h | h
        · rw [h]
          exact List.mem_cons_self _ _
        · exact List.mem_cons_of_mem _ (List.mem_cons_of_mem _ h)
      · intro x hx
        rcases List.mem_cons.mp hx with h | h
        · subst h
          exact ihbound x (List.mem_cons_self _ _)
        · rcases List.mem_cons.mp h with h2 | h2
          · subst h2
            exact Nat.le_trans (Nat.le_of_not_lt hga)
              (ihbound g (List.mem_cons_self _ _))
          · exact ihbound x (List.mem_cons_of_mem _ h2)

/-- Helper: inserting into a sorted list keeps it a permutation of the cons
and sorted. -/
theorem insertStr_perm (x : String) : ∀ l : List String,
    (insertStr x l).Perm (x :: l) := by
  intro l
  induction l with
  | nil => exact List.Perm.refl _
  | cons y ys ih =>
    rw [insertStr]
    by_cases h : strLeB x.data y.data = true
    · rw [if_pos h]
    · rw [if_neg h]
      exact (List.Perm.cons y ih).trans (List.Perm.swap x y ys)

/-- Helper: the sort behind `detect_rac_nodes` permutes its input. -/
theorem sortStr_perm : ∀ l : List String, (sortStr l).Perm l := by
  intro l
  induction l with
  | nil => exact List.Perm.refl _
  | cons x xs ih =>
    rw [sortStr]
    exact (insertStr_perm x (sortStr xs)).trans (List.Perm.cons x ih)

/-- Helper: insertion preserves sortedness under the string order. -/
theorem insertStr_sorted (x : String) : ∀ l : List String,
    List.Pairwise (fun a b => strLeB a.data b.data = true) l →
    List.Pairwise (fun a b => strLeB a.data b.data = true) (insertStr x l) := by
  intro l
  induction l with
  | nil => intro _; exact List.pairwise_singleton _ _
  | cons y ys ih =>
    intro hp
    rw [insertStr]
    obtain ⟨hy, hys⟩ := List.pairwise_cons.mp hp
    by_cases h : strLeB x.data y.data = true
    · rw [if_pos h]
      refine List.pairwise_cons.mpr ⟨?_, hp⟩
      intro b hb
      rcases List.mem_cons.mp hb with h2 | h2
      · subst h2; exact h
      · exact strLeB_trans _ _ _ h (hy b h2)
    · rw [if_neg h]
      refine List.pairwise_cons.mpr ⟨?_, ih hys⟩
      intro b hb
      have hb2 := (insertStr_perm x ys).mem_iff.mp hb
      rcases List.mem_cons.mp hb2 with h2 | h2
      · rw [h2]
        exact strLeB_total _ _ (by cases hxy : strLeB x.data y.data with
          | false => rfl
          | true => exact absurd hxy h)
      · exact hy b h2

/-- Helper: the sort behind `detect_rac_nodes` sorts ascending under the
string order. -/
theorem sortStr_sorted : ∀ l : List String,
    List.Pairwise (fun a b => strLeB a.data b.data = true) (sortStr l) := by
  intro l
  induction l with
  | nil => exact List.Pairwise.nil
  | cons x xs ih => exact insertStr_sorted x (sortStr xs) ih

/-- C8 (amended): auto-discovery matches subdirectory names against the RAC
pattern and groups them by the CONCATENATED key prefix_sidPrefix_date (which
conflates distinct triples whose concatenations coincide, see the
counterexample); every returned path is a matching immediate subdirectory;
when no group has two members the result is empty; and a non-empty result is
the first largest group, sorted ascending (a permutation of that group,
pairwise ordered). -/
theorem c8_detect_largest_concatenated_group :
    (∀ (baseDir : String) (baseExists : Bool) (entries : List BaseEntry)
        (p : String), p ∈ detect_rac_nodes baseDir baseExists entries →
        (∃ e ∈ entries, e.isDir = true ∧ p = joinPath baseDir e.name) ∧
          (racNameMatch (basenameChars p.data)).isSome = true) ∧
    (∀ (baseDir : String) (baseExists : Bool) (entries : List BaseEntry),
        (∀ g ∈ buildRacGroups (subdirPaths baseDir entries), g.2.length ≤ 1) →
        detect_rac_nodes baseDir baseExists entries = []) ∧
    (∀ (baseDir : String) (baseExists : Bool) (entries : List BaseEntry),
        detect_rac_nodes baseDir baseExists entries ≠ [] →
        ∃ g ∈ buildRacGroups (subdirPaths baseDir entries),
          2 ≤ g.2.length ∧
          detect_rac_nodes baseDir baseExists entries = sortStr g.2 ∧
          (∀ g2 ∈ buildRacGroups (subdirPaths baseDir entries),
            g2.2.length ≤ g.2.length)) ∧
    (∀ l : List String, (sortStr l).Perm l ∧
        List.Pairwise (fun a b => strLeB a.data b.data = true) (sortStr l)) := by
  have hcore : ∀ groups : List (String × List String), detectCore groups ≠ [] →
      ∃ g ∈ groups, 2 ≤ g.2.length ∧ detectCore groups = sortStr g.2 ∧
        ∀ g2 ∈ groups, g2.2.length ≤ g.2.length := by
    intro groups hne
    cases groups with
    | nil => simp [detectCore] at hne
    | cons g gt =>
      by_cases hlen : 1 < (largestGroup g gt).2.length
      · obtain ⟨hmem, hbound⟩ := largestGroup_spec gt g
        refine ⟨largestGroup g gt, hmem, hlen, ?_, ?_⟩
        · simp only [detectCore]
          rw [if_pos hlen]
        · intro g2 hg2
          exact hbound g2 hg2
      · rw [detectCore] at hne
        simp only [if_neg hlen] at hne
        exact absurd rfl hne
  have hshape : ∀ (baseDir : String) (baseExists : Bool)
      (entries : List BaseEntry), detect_rac_nodes baseDir baseExists entries ≠ [] →
      ∃ g ∈ buildRacGroups (subdirPaths baseDir entries),
        2 ≤ g.2.length ∧
        detect_rac_nodes baseDir baseExists entries = sortStr g.2 ∧
        (∀ g2 ∈ buildRacGroups (subdirPaths baseDir entries),
          g2.2.length ≤ g.2.length) := by
    intro baseDir baseExists entries hne
    cases hbe : baseExists with
    | false =>
      rw [detect_rac_nodes, hbe] at hne
      simp at hne
    | true =>
      rw [detect_rac_nodes] at hne ⊢
      rw [hbe] at hne
      simp only [Bool.not_true, Bool.false_eq_true, if_false] at hne ⊢
      exact hcore _ hne
  refine ⟨?_, ?_, hshape, ?_⟩
  · intro baseDir baseExists entries p hp
    have hne : detect_rac_nodes baseDir baseExists entries ≠ [] := by
      intro h0
      rw [h0] at hp
      cases hp
    obtain ⟨g, hgmem, _, hdet, _⟩ := hshape baseDir baseExists entries hne
    rw [hdet] at hp
    have hp2 : p ∈ g.2 := (sortStr_perm g.2).mem_iff.mp hp
    have hsrc := buildRacGroups_src (subdirPaths baseDir entries) [] p
      ⟨g, by rw [buildRacGroups] at hgmem; exact hgmem, hp2⟩
    rcases hsrc with ⟨g0, hg0, _⟩ | ⟨hmem, hmatch⟩
    · cases hg0
    · refine ⟨?_, hmatch⟩
      rw [subdirPaths] at hmem
      obtain ⟨e, he, rfl⟩ := List.mem_map.mp hmem
      obtain ⟨he1, he2⟩ := List.mem_filter.mp he
      exact ⟨e, he1, he2, rfl⟩
  · intro baseDir baseExists entries hbound
    by_contra hne
    obtain ⟨g, hgmem, hg2, _, _⟩ := hshape baseDir baseExists entries hne
    have := hbound g hgmem
    omega
  · intro l
    exact ⟨sortStr_perm l, sortStr_sorted l⟩

/-- C8 witness: a base directory with subdirectories oms-db1_hnoms1_20250826
and oms-db2_hnoms2_20250826 (and one non-matching entry) auto-discovers the
two matching directories sorted by name, through the amended theorem. -/
theorem c8_detect_witness :
    detect_rac_nodes "base" true
        [⟨"oms-db2_hnoms2_20250826", true⟩, ⟨"oms-db1_hnoms1_20250826", true⟩,
         ⟨"readme.txt", false⟩] =
      ["base/oms-db1_hnoms1_20250826", "base/oms-db2_hnoms2_20250826"] ∧
    (∀ p ∈ detect_rac_nodes "base" true
        [⟨"oms-db2_hnoms2_20250826", true⟩, ⟨"oms-db1_hnoms1_20250826", true⟩,
         ⟨"readme.txt", false⟩],
      (racNameMatch (basenameChars p.data)).isSome = true) := by
  constructor
  · decide
  · intro p hp
    exact (c8_detect_largest_concatenated_group.1 "base" true
      [⟨"oms-db2_hnoms2_20250826", true⟩, ⟨"oms-db1_hnoms1_20250826", true⟩,
       ⟨"readme.txt", false⟩] p hp).2

/-- C8 counterexample: two directory names whose pattern triples differ —
prefix a with sid b_c versus prefix a_b with sid c — share the concatenated
group key a_b_c_20250826, so the source groups them together and returns
both, whereas grouping by the triple (prefix, sidPrefix, date) would leave
two singleton groups and an empty result. -/
theorem c8_group_key_conflates_triples :
    racNameMatch (basenameChars "base/a1_b_c2_20250826".data) =
      some ("a".data, "b_c".data, "20250826".data) ∧
    racNameMatch (basenameChars "base/a_b1_c2_20250826".data) =
      some ("a_b".data, "c".data, "20250826".data) ∧
    detect_rac_nodes "base" true
        [⟨"a1_b_c2_20250826", true⟩, ⟨"a_b1_c2_20250826", true⟩] =
      ["base/a1_b_c2_20250826", "base/a_b1_c2_20250826"] := by
  refine ⟨by decide, by decide, by decide⟩

end FastDbChkRep
